import Mathlib

/-!
Shallow embedding of `runtime/src/congestion_control.rs` (cross-shard receipt
sink with congestion control) and proofs about it.

Machine integers are modelled as `Nat` with explicit bound checks where the
Rust code uses checked arithmetic on `u64` (`Gas`) and `u128` accumulators.
Persistent trie queues are modelled as Lean lists; the per-shard maps
(`HashMap`, shard-indexed buffers and metadata) are association lists.

State-mutating sink operations return a pair `(Except err α) × state`, so
that an early `?` return in Rust, which leaves mutations already performed on
`&mut self` in place, is modelled faithfully.
-/

namespace CongestionControl

/-- `u64::MAX`, the bound for `Gas` and sizes. -/
def u64Max : Nat := 2 ^ 64 - 1

/-- `u128::MAX`, the bound for the gas accumulators in `CongestionInfo`. -/
def u128Max : Nat := 2 ^ 128 - 1

/-- Mirror of `near_primitives::errors::IntegerOverflowError`. -/
structure IntegerOverflowError where
deriving DecidableEq, Repr

/-- Mirror of `near_store::StorageError` restricted to the one variant this
module produces (`StorageInconsistentState`). -/
inductive StorageError where
  | storageInconsistentState (msg : String)
deriving DecidableEq, Repr

/-- Mirror of `near_primitives::errors::RuntimeError` restricted to the
variants reachable from this module. -/
inductive RuntimeError where
  | integerOverflow
  | storageInconsistent
  | fatal (msg : String)
deriving DecidableEq, Repr

/-- Mirror of `crate::config::safe_add_gas`: checked `u64` addition. -/
def safe_add_gas (a b : Nat) : Except IntegerOverflowError Nat :=
  if a + b ≤ u64Max then .ok (a + b) else .error {}

/-- Mirror of `safe_add_gas_to_u128` at the bottom of the file: checked
addition of a `u64` gas value onto a `u128` accumulator. -/
def safe_add_gas_to_u128 (a b : Nat) : Except IntegerOverflowError Nat :=
  if a + b ≤ u128Max then .ok (a + b) else .error {}

/-- Mirror of `int_overflow_to_storage_err` / `overflow_storage_err`. -/
def overflow_storage_err : StorageError :=
  .storageInconsistentState "Calculations on stored receipt overflows calculations"


/-- Modelled from the spec: an action carries prepaid execution fees, prepaid
send fees, and, for function-call actions, explicitly attached gas (zero for
other kinds). The per-action fee functions `total_prepaid_exec_fees`,
`total_prepaid_send_fees` and `total_prepaid_gas` live in `crate::config`,
outside the sampled source, so the per-action components are data here. -/
structure Action where
  execFee : Nat
  sendFee : Nat
  attachedGas : Nat
deriving DecidableEq, Repr

/-- Mirror of `near_primitives::receipt::ReceiptEnum`, restricted to the
payload the sink inspects. -/
inductive ReceiptEnum where
  | action (actions : List Action)
  | data
  | promiseYield
  | promiseResume
deriving DecidableEq, Repr

/-- Mirror of `near_primitives::receipt::Receipt` as the sink sees it:
a receiver account, the payload variant, and the length of the canonical
borsh serialisation (`borsh::object_length`), which is opaque data here. -/
structure Receipt where
  receiver_id : Nat
  receipt : ReceiptEnum
  encodedSize : Nat
deriving DecidableEq, Repr

/-- Mirror of `near_primitives::receipt::StateStoredReceiptMetadata`. -/
structure StateStoredReceiptMetadata where
  congestion_gas : Nat
  congestion_size : Nat
deriving DecidableEq, Repr

/-- Mirror of `near_primitives::receipt::ReceiptOrStateStoredReceipt`. -/
inductive ReceiptOrStateStoredReceipt where
  | receipt (r : Receipt)
  | stateStoredReceipt (r : Receipt) (m : StateStoredReceiptMetadata)
deriving DecidableEq, Repr

/-- Mirror of `ReceiptOrStateStoredReceipt::into_receipt`. -/
def ReceiptOrStateStoredReceipt.into_receipt : ReceiptOrStateStoredReceipt → Receipt
  | .receipt r => r
  | .stateStoredReceipt r _ => r

/-- Modelled from the spec: `should_update_outgoing_metadatas` (defined in
`near_primitives`, outside the sampled source) reports whether the stored
receipt contributes to the outgoing-buffer metadata, which §4.2 ties to the
state-stored (metadata-carrying) on-disk form. -/
def ReceiptOrStateStoredReceipt.should_update_outgoing_metadatas :
    ReceiptOrStateStoredReceipt → Bool
  | .receipt _ => false
  | .stateStoredReceipt _ _ => true

/-- Runtime configuration: the fields of `RuntimeConfig` (and its nested
`congestion_control_config`) that this module reads. The fixed
`ActionCosts::new_action_receipt` execution fee is a config constant. -/
structure RuntimeConfig where
  new_action_receipt_exec_fee : Nat
  use_state_stored_receipt : Bool
  outgoing_receipts_usual_size_limit : Nat
  max_receipt_size : Nat
deriving DecidableEq, Repr

/-- Modelled from the spec: `crate::config::total_prepaid_exec_fees`, the
checked sum of prepaid execution fees over the actions. -/
def total_prepaid_exec_fees (actions : List Action) : Except IntegerOverflowError Nat :=
  actions.foldlM (fun acc a => safe_add_gas acc a.execFee) 0

/-- Modelled from the spec: `crate::config::total_prepaid_send_fees`, the
checked sum of prepaid send fees over the actions. -/
def total_prepaid_send_fees (actions : List Action) : Except IntegerOverflowError Nat :=
  actions.foldlM (fun acc a => safe_add_gas acc a.sendFee) 0

/-- Modelled from the spec: `crate::config::total_prepaid_gas`, the checked
sum of gas attached to function-call actions. -/
def total_prepaid_gas (actions : List Action) : Except IntegerOverflowError Nat :=
  actions.foldlM (fun acc a => safe_add_gas acc a.attachedGas) 0

/-- Mirror of `compute_receipt_congestion_gas`. -/
def compute_receipt_congestion_gas (receipt : Receipt) (config : RuntimeConfig) :
    Except IntegerOverflowError Nat :=
  match receipt.receipt with
  | .action actions => do
    let prepaid_exec_gas ← safe_add_gas (← total_prepaid_exec_fees actions)
      config.new_action_receipt_exec_fee
    let prepaid_send_gas ← total_prepaid_send_fees actions
    let prepaid_gas ← safe_add_gas prepaid_exec_gas prepaid_send_gas
    let gas_attached_to_fns ← total_prepaid_gas actions
    let gas ← safe_add_gas gas_attached_to_fns prepaid_gas
    pure gas
  | .data => .ok 0
  | .promiseYield => .ok 0
  | .promiseResume => .ok 0

/-- Mirror of `compute_receipt_size`: `borsh::object_length` followed by the
`usize → u64` conversion, whose failure is reported as overflow. -/
def compute_receipt_size (receipt : Receipt) : Except IntegerOverflowError Nat :=
  if receipt.encodedSize ≤ u64Max then .ok receipt.encodedSize else .error {}

/-- Mirror of `receipt_congestion_gas`: recompute for a plain receipt, read
the stored metadata for a state-stored receipt. -/
def receipt_congestion_gas (receipt : ReceiptOrStateStoredReceipt) (config : RuntimeConfig) :
    Except IntegerOverflowError Nat :=
  match receipt with
  | .receipt r => compute_receipt_congestion_gas r config
  | .stateStoredReceipt _ m => .ok m.congestion_gas

/-- Mirror of `receipt_size`: recompute for a plain receipt, read the stored
metadata for a state-stored receipt. -/
def receipt_size (receipt : ReceiptOrStateStoredReceipt) :
    Except IntegerOverflowError Nat :=
  match receipt with
  | .receipt r => compute_receipt_size r
  | .stateStoredReceipt _ m => .ok m.congestion_size

/-- First-match lookup in an association list (the model of per-shard maps:
`HashMap<ShardId, _>`, `ShardsOutgoingReceiptBuffer`, `OutgoingMetadatas`). -/
def alistGet {α : Type} : List (Nat × α) → Nat → Option α
  | [], _ => none
  | (k, v) :: t, s => if k = s then some v else alistGet t s

/-- Update-or-append in an association list; mirrors inserting through a map
entry (`entry(shard).or_insert(..)` followed by mutation). -/
def alistSet {α : Type} : List (Nat × α) → Nat → α → List (Nat × α)
  | [], s, v => [(s, v)]
  | (k, w) :: t, s, v => if k = s then (s, v) :: t else (k, w) :: alistSet t s v

/-- Mirror of `OutgoingLimit`: the remaining per-destination forwarding
allowance for the current chunk. -/
structure OutgoingLimit where
  gas : Nat
  size : Nat
deriving DecidableEq, Repr

/-- Mirror of `enum ReceiptForwarding`. -/
inductive ReceiptForwarding where
  | forwarded
  | notForwarded (r : Receipt)
deriving DecidableEq, Repr

/-- Mirror of `near_primitives::congestion_info::CongestionInfoV1` (the only
variant this module constructs); gas totals are `u128` accumulators,
`receipt_bytes` is `u64`. -/
structure CongestionInfoV1 where
  delayed_receipts_gas : Nat
  buffered_receipts_gas : Nat
  receipt_bytes : Nat
  allowed_shard : Nat
deriving DecidableEq, Repr

namespace CongestionInfoV1

/-- Modelled from the spec: `CongestionInfo::add_receipt_bytes`
(`near_primitives`, outside the sampled source) — checked `u64` addition,
overflow is an error (§7 taxonomy). -/
def add_receipt_bytes (c : CongestionInfoV1) (bytes : Nat) :
    Except RuntimeError CongestionInfoV1 :=
  if c.receipt_bytes + bytes ≤ u64Max then
    .ok { c with receipt_bytes := c.receipt_bytes + bytes }
  else .error .integerOverflow

/-- Modelled from the spec: `CongestionInfo::remove_receipt_bytes` — checked
`u64` subtraction; underflow while removing is a storage-inconsistency
error (§7 taxonomy). -/
def remove_receipt_bytes (c : CongestionInfoV1) (bytes : Nat) :
    Except RuntimeError CongestionInfoV1 :=
  if bytes ≤ c.receipt_bytes then
    .ok { c with receipt_bytes := c.receipt_bytes - bytes }
  else .error .storageInconsistent

/-- Modelled from the spec: `CongestionInfo::add_buffered_receipt_gas` —
checked addition onto the `u128` accumulator. -/
def add_buffered_receipt_gas (c : CongestionInfoV1) (gas : Nat) :
    Except RuntimeError CongestionInfoV1 :=
  if c.buffered_receipts_gas + gas ≤ u128Max then
    .ok { c with buffered_receipts_gas := c.buffered_receipts_gas + gas }
  else .error .integerOverflow

/-- Modelled from the spec: `CongestionInfo::remove_buffered_receipt_gas` —
checked subtraction from the `u128` accumulator. -/
def remove_buffered_receipt_gas (c : CongestionInfoV1) (gas : Nat) :
    Except RuntimeError CongestionInfoV1 :=
  if gas ≤ c.buffered_receipts_gas then
    .ok { c with buffered_receipts_gas := c.buffered_receipts_gas - gas }
  else .error .storageInconsistent

/-- Modelled from the spec: `CongestionInfo::add_delayed_receipt_gas`. -/
def add_delayed_receipt_gas (c : CongestionInfoV1) (gas : Nat) :
    Except RuntimeError CongestionInfoV1 :=
  if c.delayed_receipts_gas + gas ≤ u128Max then
    .ok { c with delayed_receipts_gas := c.delayed_receipts_gas + gas }
  else .error .integerOverflow

/-- Modelled from the spec: `CongestionInfo::remove_delayed_receipt_gas`. -/
def remove_delayed_receipt_gas (c : CongestionInfoV1) (gas : Nat) :
    Except RuntimeError CongestionInfoV1 :=
  if gas ≤ c.delayed_receipts_gas then
    .ok { c with delayed_receipts_gas := c.delayed_receipts_gas - gas }
  else .error .storageInconsistent

end CongestionInfoV1

/-- Per-destination congestion data the sink receives for a peer shard:
`ExtendedCongestionInfo` (its advertised `CongestionInfo` plus the
missed-chunks counter). -/
structure ExtendedCongestionInfo where
  congestion_info : CongestionInfoV1
  missed_chunks_count : Nat
deriving DecidableEq, Repr

/-- Parameters of the bandwidth scheduler output that this module reads
(`BandwidthSchedulerParams`). -/
structure BandwidthSchedulerParams where
  max_receipt_size : Nat
deriving DecidableEq, Repr

/-- Mirror of `ApplyState` restricted to the fields this module reads. The
`account → shard` mapping of the epoch info provider is a function field. -/
structure ApplyState where
  config : RuntimeConfig
  shard_id : Nat
  congestion_info : List (Nat × ExtendedCongestionInfo)
  account_id_to_shard_id : Nat → Nat

/-- Mirror of `ReceiptSinkV2::try_forward`. It threads the outgoing-limit map
and outgoing-receipts vector explicitly, exactly as the Rust function takes
them as `&mut` arguments; inserting the default limit on a missing entry
mirrors `entry(shard).or_insert(default_outgoing_limit)`. -/
def try_forward (receipt : Receipt) (gas : Nat) (size : Nat) (shard : Nat)
    (outgoing_limit : List (Nat × OutgoingLimit))
    (outgoing_receipts : List Receipt) (apply_state : ApplyState) :
    ReceiptForwarding × List (Nat × OutgoingLimit) × List Receipt :=
  let default_outgoing_limit : OutgoingLimit :=
    { gas := u64Max
      size := apply_state.config.outgoing_receipts_usual_size_limit }
  let forward_limit := (alistGet outgoing_limit shard).getD default_outgoing_limit
  if forward_limit.gas > gas ∧ forward_limit.size > size then
    (.forwarded,
     alistSet outgoing_limit shard
       { gas := forward_limit.gas - gas, size := forward_limit.size - size },
     outgoing_receipts ++ [receipt])
  else
    (.notForwarded receipt, alistSet outgoing_limit shard forward_limit,
     outgoing_receipts)

/-- Modelled from the spec: the per-destination `OutgoingMetadata`
(`near_store::trie::outgoing_metadata`, outside the sampled source) — a
receipt count plus the summarised sizes of the still-buffered receipts
(§3 "receipt groups"), kept here as the FIFO list of receipt sizes. -/
structure OutgoingMetadata where
  total_receipts : Nat
  group_sizes : List Nat
deriving DecidableEq, Repr

/-- Mirror of `ReceiptSinkV2`: the in-memory sink state together with the
logical contents of its trie-backed collaborators (outgoing buffers and
outgoing metadata), which in Rust live behind `TrieUpdate`. -/
structure ReceiptSinkV2 where
  own_congestion_info : CongestionInfoV1
  outgoing_receipts : List Receipt
  outgoing_limit : List (Nat × OutgoingLimit)
  outgoing_buffers : List (Nat × List ReceiptOrStateStoredReceipt)
  outgoing_metadatas : List (Nat × OutgoingMetadata)
  bandwidth_scheduler_output : Option BandwidthSchedulerParams
  protocol_version : Nat
deriving DecidableEq, Repr

/-- Contents of the outgoing buffer for one shard
(`outgoing_buffers.to_shard(shard)`), empty when absent. -/
def bufferOf (st : ReceiptSinkV2) (shard : Nat) : List ReceiptOrStateStoredReceipt :=
  (alistGet st.outgoing_buffers shard).getD []

/-- Modelled from the spec: `OutgoingMetadatas::update_on_receipt_pushed` —
record one more buffered receipt and its size for the destination. -/
def metadatasOnPushed (mds : List (Nat × OutgoingMetadata)) (shard : Nat)
    (size : Nat) : List (Nat × OutgoingMetadata) :=
  let md := (alistGet mds shard).getD { total_receipts := 0, group_sizes := [] }
  alistSet mds shard
    { total_receipts := md.total_receipts + 1, group_sizes := md.group_sizes ++ [size] }

/-- Modelled from the spec: `OutgoingMetadatas::update_on_receipt_popped` —
drop the oldest tracked receipt for the destination. -/
def metadatasOnPopped (mds : List (Nat × OutgoingMetadata)) (shard : Nat) :
    List (Nat × OutgoingMetadata) :=
  let md := (alistGet mds shard).getD { total_receipts := 0, group_sizes := [] }
  alistSet mds shard
    { total_receipts := md.total_receipts - 1, group_sizes := md.group_sizes.tail }

/-- Mirror of `ReceiptSinkV2::buffer_receipt`: wrap the receipt according to
`use_state_stored_receipt`, add its size and gas to the own congestion info,
update the outgoing metadata when the stored form contributes to it, and push
to the destination buffer. Partial mutations before a failing step persist in
the returned state, as they do on `&mut self`. -/
def buffer_receipt (receipt : Receipt) (size : Nat) (gas : Nat)
    (shard : Nat) (use_state_stored_receipt : Bool) (st : ReceiptSinkV2) :
    Except RuntimeError Unit × ReceiptSinkV2 :=
  let stored : ReceiptOrStateStoredReceipt :=
    if use_state_stored_receipt then
      .stateStoredReceipt receipt { congestion_gas := gas, congestion_size := size }
    else
      .receipt receipt
  match st.own_congestion_info.add_receipt_bytes size with
  | .error e => (.error e, st)
  | .ok info1 =>
    match info1.add_buffered_receipt_gas gas with
    | .error e => (.error e, { st with own_congestion_info := info1 })
    | .ok info2 =>
      let st := { st with own_congestion_info := info2 }
      let st :=
        if stored.should_update_outgoing_metadatas then
          { st with outgoing_metadatas := metadatasOnPushed st.outgoing_metadatas shard size }
        else st
      (.ok (),
       { st with outgoing_buffers :=
           alistSet st.outgoing_buffers shard (bufferOf st shard ++ [stored]) })

/-- Mirror of `ReceiptSinkV2::forward_or_buffer_receipt`: resolve the
destination shard, compute size and gas, try to forward, buffer on
`NotForwarded`. -/
def forward_or_buffer_receipt (receipt : Receipt) (apply_state : ApplyState)
    (st : ReceiptSinkV2) : Except RuntimeError Unit × ReceiptSinkV2 :=
  let shard := apply_state.account_id_to_shard_id receipt.receiver_id
  match compute_receipt_size receipt with
  | .error _ => (.error .integerOverflow, st)
  | .ok size =>
    match compute_receipt_congestion_gas receipt apply_state.config with
    | .error _ => (.error .integerOverflow, st)
    | .ok gas =>
      match try_forward receipt gas size shard st.outgoing_limit
          st.outgoing_receipts apply_state with
      | (.forwarded, limit, outgoing) =>
        (.ok (), { st with outgoing_limit := limit, outgoing_receipts := outgoing })
      | (.notForwarded receipt, limit, outgoing) =>
        buffer_receipt receipt size gas shard apply_state.config.use_state_stored_receipt
          { st with outgoing_limit := limit, outgoing_receipts := outgoing }

/-- The loop body of `ReceiptSinkV2::forward_from_buffer_to_shard`: iterate
the buffered receipts head-to-tail, try to forward each, count forwards and
collect the deferred metadata pop updates, and stop at the first receipt that
is not forwarded. Accumulators mirror the `&mut` state the Rust loop touches
(`outgoing_limit`, `outgoing_receipts`, `own_congestion_info`,
`num_forwarded`, `outgoing_metadatas_updates`). -/
def forwardLoop (apply_state : ApplyState) (shard : Nat) :
    List ReceiptOrStateStoredReceipt →
    List (Nat × OutgoingLimit) → List Receipt → CongestionInfoV1 →
    Nat → List (Nat × Nat) →
    Except RuntimeError Unit × List (Nat × OutgoingLimit) × List Receipt ×
      CongestionInfoV1 × Nat × List (Nat × Nat)
  | [], limit, outgoing, info, n, updates => (.ok (), limit, outgoing, info, n, updates)
  | r :: rest, limit, outgoing, info, n, updates =>
    match receipt_congestion_gas r apply_state.config with
    | .error _ => (.error .integerOverflow, limit, outgoing, info, n, updates)
    | .ok gas =>
      match receipt_size r with
      | .error _ => (.error .integerOverflow, limit, outgoing, info, n, updates)
      | .ok size =>
        match try_forward r.into_receipt gas size shard limit outgoing apply_state with
        | (.forwarded, limit, outgoing) =>
          match info.remove_receipt_bytes size with
          | .error e => (.error e, limit, outgoing, info, n, updates)
          | .ok info =>
            match info.remove_buffered_receipt_gas gas with
            | .error e => (.error e, limit, outgoing, info, n, updates)
            | .ok info =>
              forwardLoop apply_state shard rest limit outgoing info (n + 1)
                (updates ++
                  if r.should_update_outgoing_metadatas then [(size, gas)] else [])
        | (.notForwarded _, limit, outgoing) =>
          (.ok (), limit, outgoing, info, n, updates)

/-- Mirror of `ReceiptSinkV2::forward_from_buffer_to_shard`: run the loop, then
pop the forwarded prefix from the buffer (`pop_n`, deferred until iteration
released the trie borrow) and apply the collected metadata pop updates. On an
error inside the loop, the mutations the loop already performed persist and
neither the pop nor the metadata updates happen, as in the Rust early return. -/
def forward_from_buffer_to_shard (shard : Nat) (apply_state : ApplyState)
    (st : ReceiptSinkV2) : Except RuntimeError Unit × ReceiptSinkV2 :=
  match forwardLoop apply_state shard (bufferOf st shard) st.outgoing_limit
      st.outgoing_receipts st.own_congestion_info 0 [] with
  | (.error e, limit, outgoing, info, _, _) =>
    (.error e,
     { st with outgoing_limit := limit, outgoing_receipts := outgoing,
               own_congestion_info := info })
  | (.ok (), limit, outgoing, info, n, updates) =>
    let st1 :=
      { st with outgoing_limit := limit, outgoing_receipts := outgoing,
                own_congestion_info := info,
                outgoing_buffers :=
                  alistSet st.outgoing_buffers shard ((bufferOf st shard).drop n) }
    (.ok (),
     { st1 with outgoing_metadatas :=
         updates.foldl (fun mds _ => metadatasOnPopped mds shard) st1.outgoing_metadatas })

/-- Helper for `ReceiptSinkV2::forward_from_buffer`: drain each shard of the
pre-collected key list in turn, stopping on the first error. -/
def forwardFromBufferGo (apply_state : ApplyState) :
    List Nat → ReceiptSinkV2 → Except RuntimeError Unit × ReceiptSinkV2
  | [], st => (.ok (), st)
  | s :: rest, st =>
    match forward_from_buffer_to_shard s apply_state st with
    | (.error e, st) => (.error e, st)
    | (.ok (), st) => forwardFromBufferGo apply_state rest st

/-- Mirror of `ReceiptSinkV2::forward_from_buffer`: the shard list is the key
set of `outgoing_limit`, collected before the loop. -/
def forward_from_buffer (apply_state : ApplyState) (st : ReceiptSinkV2) :
    Except RuntimeError Unit × ReceiptSinkV2 :=
  forwardFromBufferGo apply_state (st.outgoing_limit.map Prod.fst) st

/-- Modelled from the spec: `ProtocolFeature::CongestionControl.enabled`
(`near_primitives`, outside the sampled source) — the feature is on from its
stabilisation protocol version. -/
def congestionControlEnabled (protocol_version : Nat) : Bool :=
  67 ≤ protocol_version

/-- Modelled from the spec: `ProtocolFeature::BandwidthScheduler.enabled`,
an independent feature with a later stabilisation version. -/
def bandwidthSchedulerEnabled (protocol_version : Nat) : Bool :=
  74 ≤ protocol_version

/-- Mirror of `enum ReceiptSink`: the façade over the legacy always-forward
variant and the congestion-aware variant. -/
inductive ReceiptSink where
  | v1 (outgoing_receipts : List Receipt)
  | v2 (inner : ReceiptSinkV2)
deriving DecidableEq, Repr

/-- Logical contents of the trie columns this module touches. -/
structure TrieState where
  delayed : List ReceiptOrStateStoredReceipt
  buffers : List (Nat × List ReceiptOrStateStoredReceipt)
  metadatas : List (Nat × OutgoingMetadata)
deriving DecidableEq, Repr

/-- Modelled from the spec: the backpressure policy
`CongestionControl::outgoing_gas_limit` / `outgoing_size_limit`
(`near_primitives`, outside the sampled source), a black box deriving the
per-destination limits from a peer congestion info, its missed-chunks count
and the sender shard. -/
structure CongestionControlPolicy where
  outgoing_gas_limit : ExtendedCongestionInfo → Nat → Nat
  outgoing_size_limit : ExtendedCongestionInfo → Nat → Nat

/-- Mirror of `ReceiptSink::new`. The two `debug_assert!` checks on the
`CongestionControl` feature flag are modelled as failing construction with a
fatal error when the asserted biconditional does not hold. -/
def ReceiptSink.new (protocol_version : Nat) (trie : TrieState)
    (apply_state : ApplyState) (policy : CongestionControlPolicy)
    (prev_own_congestion_info : Option CongestionInfoV1)
    (bandwidth_scheduler_output : Option BandwidthSchedulerParams) :
    Except RuntimeError ReceiptSink :=
  match prev_own_congestion_info with
  | some own_congestion_info =>
    if congestionControlEnabled protocol_version then
      let outgoing_limit : List (Nat × OutgoingLimit) :=
        apply_state.congestion_info.map (fun p =>
          let gas_limit :=
            if p.1 ≠ apply_state.shard_id then
              policy.outgoing_gas_limit p.2 apply_state.shard_id
            else
              u64Max
          let size_limit := policy.outgoing_size_limit p.2 apply_state.shard_id
          (p.1, { gas := gas_limit, size := size_limit : OutgoingLimit }))
      .ok (.v2
        { own_congestion_info
          outgoing_receipts := []
          outgoing_limit
          outgoing_buffers := trie.buffers
          outgoing_metadatas := trie.metadatas
          bandwidth_scheduler_output
          protocol_version })
    else
      .error (.fatal "assertion failed: CongestionControl enabled")
  | none =>
    if congestionControlEnabled protocol_version then
      .error (.fatal "assertion failed: CongestionControl disabled")
    else
      .ok (.v1 [])

/-- Mirror of `ReceiptSink::forward_or_buffer_receipt` on the façade: the
legacy variant forwards unconditionally (`ReceiptSinkV1::forward`). -/
def ReceiptSink.forward_or_buffer_receipt (receipt : Receipt)
    (apply_state : ApplyState) (sink : ReceiptSink) :
    Except RuntimeError Unit × ReceiptSink :=
  match sink with
  | .v1 outgoing => (.ok (), .v1 (outgoing ++ [receipt]))
  | .v2 inner =>
    match CongestionControl.forward_or_buffer_receipt receipt apply_state inner with
    | (res, inner) => (res, .v2 inner)

/-- Mirror of `ReceiptSink::own_congestion_info`: absent in legacy mode. -/
def ReceiptSink.own_congestion_info : ReceiptSink → Option CongestionInfoV1
  | .v1 _ => none
  | .v2 inner => some inner.own_congestion_info

/-- The queue-scan loop of `bootstrap_congestion_info` (the delayed-queue and
the outgoing-buffer `for` bodies are identical): fold gas into the `u128`
accumulator and sizes into the `u64` byte accumulator, every addition checked
and every failure mapped to the storage-inconsistency error. -/
def bootstrapScan (config : RuntimeConfig) :
    List ReceiptOrStateStoredReceipt → Nat → Nat → Except StorageError (Nat × Nat)
  | [], gasAcc, bytesAcc => .ok (gasAcc, bytesAcc)
  | r :: rest, gasAcc, bytesAcc =>
    match receipt_congestion_gas r config with
    | .error _ => .error overflow_storage_err
    | .ok gas =>
      match safe_add_gas_to_u128 gasAcc gas with
      | .error _ => .error overflow_storage_err
      | .ok gasAcc =>
        match receipt_size r with
        | .error _ => .error overflow_storage_err
        | .ok memory =>
          if bytesAcc + memory ≤ u64Max then
            bootstrapScan config rest gasAcc (bytesAcc + memory)
          else .error overflow_storage_err

/-- Mirror of `bootstrap_congestion_info`: scan the delayed queue, then every
outgoing buffer in shard order (their concatenation, the byte accumulator
continuing across the scans), and assemble a `CongestionInfoV1` with
`allowed_shard` set to the own shard id. -/
def bootstrap_congestion_info (trie : TrieState) (config : RuntimeConfig)
    (shard_id : Nat) : Except StorageError CongestionInfoV1 :=
  match bootstrapScan config trie.delayed 0 0 with
  | .error e => .error e
  | .ok (delayed_receipts_gas, receipt_bytes) =>
    match bootstrapScan config (trie.buffers.map Prod.snd).flatten 0 receipt_bytes with
    | .error e => .error e
    | .ok (buffered_receipts_gas, receipt_bytes) =>
      .ok
        { delayed_receipts_gas
          buffered_receipts_gas
          receipt_bytes
          allowed_shard := shard_id }

/-- Mirror of `DelayedReceiptQueueWrapper`: the delayed queue view plus the
four accumulated counters. -/
structure DelayedReceiptQueueWrapper where
  queue : List ReceiptOrStateStoredReceipt
  new_delayed_gas : Nat
  new_delayed_bytes : Nat
  removed_delayed_gas : Nat
  removed_delayed_bytes : Nat
deriving DecidableEq, Repr

namespace DelayedReceiptQueueWrapper

/-- Mirror of `DelayedReceiptQueueWrapper::new`. -/
def new (queue : List ReceiptOrStateStoredReceipt) : DelayedReceiptQueueWrapper :=
  { queue
    new_delayed_gas := 0
    new_delayed_bytes := 0
    removed_delayed_gas := 0
    removed_delayed_bytes := 0 }

/-- Mirror of `DelayedReceiptQueueWrapper::push`: compute gas and size, wrap
per `use_state_stored_receipt`, add to the pushed counters, push to the
queue tail. -/
def push (receipt : Receipt) (config : RuntimeConfig)
    (w : DelayedReceiptQueueWrapper) :
    Except RuntimeError Unit × DelayedReceiptQueueWrapper :=
  match compute_receipt_congestion_gas receipt config with
  | .error _ => (.error .integerOverflow, w)
  | .ok gas =>
    match compute_receipt_size receipt with
    | .error _ => (.error .integerOverflow, w)
    | .ok size =>
      let stored : ReceiptOrStateStoredReceipt :=
        if config.use_state_stored_receipt then
          .stateStoredReceipt receipt { congestion_gas := gas, congestion_size := size }
        else
          .receipt receipt
      match safe_add_gas w.new_delayed_gas gas with
      | .error _ => (.error .integerOverflow, w)
      | .ok g =>
        let w := { w with new_delayed_gas := g }
        match safe_add_gas w.new_delayed_bytes size with
        | .error _ => (.error .integerOverflow, w)
        | .ok b =>
          (.ok (), { w with new_delayed_bytes := b, queue := w.queue ++ [stored] })

/-- Mirror of `DelayedReceiptQueueWrapper::pop`: pop the head if any, then add
its gas and size to the removed counters. The head is already removed when a
later step fails, as with the Rust early return after `pop_front`. -/
def pop (config : RuntimeConfig) (w : DelayedReceiptQueueWrapper) :
    Except RuntimeError (Option ReceiptOrStateStoredReceipt) × DelayedReceiptQueueWrapper :=
  match w.queue with
  | [] => (.ok none, w)
  | r :: rest =>
    let w := { w with queue := rest }
    match receipt_congestion_gas r config with
    | .error _ => (.error .integerOverflow, w)
    | .ok delayed_gas =>
      match receipt_size r with
      | .error _ => (.error .integerOverflow, w)
      | .ok delayed_bytes =>
        match safe_add_gas w.removed_delayed_gas delayed_gas with
        | .error _ => (.error .integerOverflow, w)
        | .ok g =>
          let w := { w with removed_delayed_gas := g }
          match safe_add_gas w.removed_delayed_bytes delayed_bytes with
          | .error _ => (.error .integerOverflow, w)
          | .ok b =>
            (.ok (some r), { w with removed_delayed_bytes := b })

/-- Mirror of `DelayedReceiptQueueWrapper::len`. -/
def len (w : DelayedReceiptQueueWrapper) : Nat :=
  w.queue.length

/-- Mirror of `DelayedReceiptQueueWrapper::apply_congestion_changes`: apply
the four accumulated deltas to the congestion info through its checked
entrypoints; mutations before a failing step persist. -/
def apply_congestion_changes (w : DelayedReceiptQueueWrapper)
    (congestion : CongestionInfoV1) :
    Except RuntimeError Unit × CongestionInfoV1 :=
  match congestion.add_delayed_receipt_gas w.new_delayed_gas with
  | .error e => (.error e, congestion)
  | .ok congestion =>
    match congestion.remove_delayed_receipt_gas w.removed_delayed_gas with
    | .error e => (.error e, congestion)
    | .ok congestion =>
      match congestion.add_receipt_bytes w.new_delayed_bytes with
      | .error e => (.error e, congestion)
      | .ok congestion =>
        match congestion.remove_receipt_bytes w.removed_delayed_bytes with
        | .error e => (.error e, congestion)
        | .ok congestion => (.ok (), congestion)

end DelayedReceiptQueueWrapper

/-- Mirror of `near_primitives::bandwidth_scheduler::BandwidthRequest` as this
module builds it: either a proper request derived from the receipt-size
groups of the outgoing metadata (`make_from_receipt_sizes`) or a basic
request for `max_receipt_size` (`make_max_receipt_size_request`); both
constructors live outside the sampled source and are modelled from the spec
as tagged data. -/
inductive BandwidthRequest where
  | fromReceiptSizes (to_shard : Nat) (group_sizes : List Nat)
  | maxReceiptSize (to_shard : Nat) (size : Nat)
deriving DecidableEq, Repr

/-- Mirror of `BandwidthRequestsV1`. -/
structure BandwidthRequestsV1 where
  requests : List BandwidthRequest
deriving DecidableEq, Repr

/-- Mirror of `BandwidthRequests` (only `V1` exists). -/
inductive BandwidthRequests where
  | v1 (requests : BandwidthRequestsV1)
deriving DecidableEq, Repr

/-- Mirror of `ReceiptSinkV2::generate_bandwidth_request`: nothing for an
empty buffer; a basic `max_receipt_size` request when the metadata is missing
or its receipt count diverges from the buffer length; otherwise a proper
request from the metadata receipt-size groups. -/
def generate_bandwidth_request (st : ReceiptSinkV2) (to_shard : Nat)
    (params : BandwidthSchedulerParams) : Option BandwidthRequest :=
  let outgoing_receipts_buffer_len := (bufferOf st to_shard).length
  if outgoing_receipts_buffer_len = 0 then
    none
  else
    match alistGet st.outgoing_metadatas to_shard with
    | none => some (.maxReceiptSize to_shard params.max_receipt_size)
    | some metadata =>
      if metadata.total_receipts ≠ outgoing_receipts_buffer_len then
        some (.maxReceiptSize to_shard params.max_receipt_size)
      else
        some (.fromReceiptSizes to_shard metadata.group_sizes)

/-- Mirror of `ReceiptSinkV2::generate_bandwidth_requests`: `none` when the
`BandwidthScheduler` feature is off; a fatal error when it is on but the
scheduler produced no params (the `expect`); otherwise the per-destination
requests over the buffered shards, wrapped as `BandwidthRequests::V1`. -/
def generate_bandwidth_requests (st : ReceiptSinkV2) :
    Except RuntimeError (Option BandwidthRequests) :=
  if ¬ bandwidthSchedulerEnabled st.protocol_version then
    .ok none
  else
    match st.bandwidth_scheduler_output with
    | none => .error (.fatal "BandwidthScheduler is enabled and should produce params")
    | some params =>
      .ok (some (.v1
        { requests :=
            (st.outgoing_buffers.map Prod.fst).filterMap
              (fun s => generate_bandwidth_request st s params) }))

/-- The congestion gas of a stored receipt as a plain value (0 when the
computation fails; used only where success is guaranteed). -/
def storedGas (config : RuntimeConfig) (r : ReceiptOrStateStoredReceipt) : Nat :=
  match receipt_congestion_gas r config with
  | .ok g => g
  | .error _ => 0

/-- The size of a stored receipt as a plain value (0 when the computation
fails; used only where success is guaranteed). -/
def storedSize (r : ReceiptOrStateStoredReceipt) : Nat :=
  match receipt_size r with
  | .ok s => s
  | .error _ => 0

/-- Sum of `storedGas` over a queue. -/
def gasSum (config : RuntimeConfig) (l : List ReceiptOrStateStoredReceipt) : Nat :=
  (l.map (storedGas config)).sum

/-- Sum of `storedSize` over a queue. -/
def sizeSum (l : List ReceiptOrStateStoredReceipt) : Nat :=
  (l.map storedSize).sum

/-- Whether every receipt of the queue admits both computations. -/
def scanOk (config : RuntimeConfig) (l : List ReceiptOrStateStoredReceipt) : Bool :=
  l.all (fun r => (receipt_congestion_gas r config).isOk && (receipt_size r).isOk)

/-- The greedy head-of-line prefix length: how many receipts fit, in order,
against a remaining limit `L` under the strict comparison of `try_forward`,
stopping at the first receipt that does not fit (or whose gas or size
computation fails). -/
def greedyCount (config : RuntimeConfig) (L : OutgoingLimit) :
    List ReceiptOrStateStoredReceipt → Nat
  | [] => 0
  | r :: rest =>
    match receipt_congestion_gas r config, receipt_size r with
    | .ok gas, .ok size =>
      if L.gas > gas ∧ L.size > size then
        1 + greedyCount config { gas := L.gas - gas, size := L.size - size } rest
      else 0
    | _, _ => 0

/-- The deferred metadata pop updates a drained prefix generates: one
`(size, gas)` entry per receipt that contributes to the outgoing metadata. -/
def popUpdates (config : RuntimeConfig) (l : List ReceiptOrStateStoredReceipt) :
    List (Nat × Nat) :=
  l.filterMap (fun r =>
    if r.should_update_outgoing_metadatas then
      some (storedSize r, storedGas config r)
    else none)

/-- Total congestion gas of every receipt in every outgoing buffer. -/
def buffersGas (config : RuntimeConfig)
    (bufs : List (Nat × List ReceiptOrStateStoredReceipt)) : Nat :=
  (bufs.map (fun p => gasSum config p.2)).sum

/-- Total size of every receipt in every outgoing buffer. -/
def buffersSize (bufs : List (Nat × List ReceiptOrStateStoredReceipt)) : Nat :=
  (bufs.map (fun p => sizeSum p.2)).sum

/-- The running-total invariant of the sink (§3, §8): the own congestion info
carries exactly the buffered gas of all outgoing buffers, and the byte total
of the delayed queue (whose byte sum is `delayedBytes`) plus all outgoing
buffers. -/
def sinkInvariant (config : RuntimeConfig) (st : ReceiptSinkV2)
    (delayedBytes : Nat) : Prop :=
  st.own_congestion_info.buffered_receipts_gas = buffersGas config st.outgoing_buffers ∧
  st.own_congestion_info.receipt_bytes = delayedBytes + buffersSize st.outgoing_buffers

/-- A concrete apply state with an empty congestion map. -/
def applyC2 : ApplyState :=
  { config := { new_action_receipt_exec_fee := 0, use_state_stored_receipt := true,
                outgoing_receipts_usual_size_limit := 100, max_receipt_size := 100 }
    shard_id := 1
    congestion_info := []
    account_id_to_shard_id := fun a => a }

/-- A concrete sink whose buffer for shard 7 holds three state-stored receipts
with gas 100, 900 and 50, all of size 10, against the remaining limit
`{gas 200, size 1000000}`. -/
def sinkC2 : ReceiptSinkV2 :=
  { own_congestion_info :=
      { delayed_receipts_gas := 0, buffered_receipts_gas := 1050,
        receipt_bytes := 30, allowed_shard := 1 }
    outgoing_receipts := []
    outgoing_limit := [(7, { gas := 200, size := 1000000 })]
    outgoing_buffers :=
      [(7, [.stateStoredReceipt { receiver_id := 70, receipt := .data, encodedSize := 10 }
              { congestion_gas := 100, congestion_size := 10 },
            .stateStoredReceipt { receiver_id := 71, receipt := .data, encodedSize := 10 }
              { congestion_gas := 900, congestion_size := 10 },
            .stateStoredReceipt { receiver_id := 72, receipt := .data, encodedSize := 10 }
              { congestion_gas := 50, congestion_size := 10 }])]
    outgoing_metadatas := [(7, { total_receipts := 3, group_sizes := [10, 10, 10] })]
    bandwidth_scheduler_output := none
    protocol_version := 70 }

/-- An empty sink whose congestion info carries only 5 delayed bytes. -/
def sinkC6 : ReceiptSinkV2 :=
  { own_congestion_info :=
      { delayed_receipts_gas := 0, buffered_receipts_gas := 0,
        receipt_bytes := 5, allowed_shard := 1 }
    outgoing_receipts := []
    outgoing_limit := []
    outgoing_buffers := []
    outgoing_metadatas := []
    bandwidth_scheduler_output := none
    protocol_version := 70 }

/-- A delayed wrapper carrying accumulated deltas: 10 gas and 20 bytes
pushed, 3 gas and 4 bytes removed. -/
def wrapC6 : DelayedReceiptQueueWrapper :=
  { queue := [], new_delayed_gas := 10, new_delayed_bytes := 20,
    removed_delayed_gas := 3, removed_delayed_bytes := 4 }

/-- A concrete congestion info for applying the wrapper deltas. -/
def infoC6 : CongestionInfoV1 :=
  { delayed_receipts_gas := 5, buffered_receipts_gas := 6,
    receipt_bytes := 7, allowed_shard := 8 }

/-- A concrete trie state for the bootstrap scan: two delayed receipts and two
single-receipt outgoing buffers, all state-stored with metadata. -/
def trieC5 : TrieState :=
  { delayed :=
      [.stateStoredReceipt { receiver_id := 0, receipt := .data, encodedSize := 10 }
         { congestion_gas := 3, congestion_size := 10 },
       .stateStoredReceipt { receiver_id := 0, receipt := .data, encodedSize := 11 }
         { congestion_gas := 4, congestion_size := 11 }]
    buffers :=
      [(2, [.stateStoredReceipt { receiver_id := 2, receipt := .data, encodedSize := 12 }
              { congestion_gas := 5, congestion_size := 12 }]),
       (7, [.stateStoredReceipt { receiver_id := 7, receipt := .data, encodedSize := 13 }
              { congestion_gas := 6, congestion_size := 13 }])]
    metadatas := [] }

/-- A concrete congestion-aware sink with three destination buffers: shard 3
empty, shard 4 with one receipt and matching metadata, shard 5 with one
receipt and stale metadata reporting two receipts. -/
def sinkC7 : ReceiptSinkV2 :=
  { own_congestion_info :=
      { delayed_receipts_gas := 0, buffered_receipts_gas := 0,
        receipt_bytes := 0, allowed_shard := 1 }
    outgoing_receipts := []
    outgoing_limit := []
    outgoing_buffers :=
      [(3, []),
       (4, [.stateStoredReceipt { receiver_id := 4, receipt := .data, encodedSize := 7 }
              { congestion_gas := 0, congestion_size := 7 }]),
       (5, [.receipt { receiver_id := 5, receipt := .data, encodedSize := 7 }])]
    outgoing_metadatas :=
      [(4, { total_receipts := 1, group_sizes := [7] }),
       (5, { total_receipts := 2, group_sizes := [7, 7] })]
    bandwidth_scheduler_output := some { max_receipt_size := 42 }
    protocol_version := 74 }

/-! ## Lemmas about the association-list maps -/

theorem alistGet_alistSet_self {α : Type} (m : List (Nat × α)) (s : Nat) (v : α) :
    alistGet (alistSet m s v) s = some v := by
  induction m with
  | nil => simp [alistGet, alistSet]
  | cons p t ih =>
    obtain ⟨k, w⟩ := p
    by_cases hk : k = s
    · simp [alistGet, alistSet, hk]
    · simp [alistGet, alistSet, hk, ih]

theorem alistGet_alistSet_ne {α : Type} (m : List (Nat × α)) (s s' : Nat) (v : α)
    (h : s' ≠ s) : alistGet (alistSet m s v) s' = alistGet m s' := by
  have h' : s ≠ s' := fun hs => h hs.symm
  induction m with
  | nil => simp [alistGet, alistSet, h']
  | cons p t ih =>
    obtain ⟨k, w⟩ := p
    by_cases hk : k = s
    · subst hk
      simp [alistGet, alistSet, h']
    · simp only [alistSet, if_neg hk]
      by_cases hk' : k = s'
      · simp [alistGet, hk']
      · simp [alistGet, hk', ih]

/-- C1. In congestion-aware mode, for a receipt offered with computed
`(gas, size)` and remaining limit `L` for its destination, `try_forward`
forwards the receipt if and only if `L.gas > gas` and `L.size > size`; when it
forwards, it appends the receipt to `outgoing_receipts` and decrements the
limit components by exactly `gas` and `size`; when either component equals the
remaining limit the receipt is not forwarded (it is handed back for
buffering), and neither the outgoing list nor the remaining limit changes. -/
theorem try_forward_strict_limit (receipt : Receipt) (gas : Nat) (size : Nat)
    (shard : Nat) (m : List (Nat × OutgoingLimit)) (outgoing : List Receipt)
    (apply_state : ApplyState) (L : OutgoingLimit) (hL : alistGet m shard = some L) :
    ((try_forward receipt gas size shard m outgoing apply_state).1 = .forwarded ↔
      L.gas > gas ∧ L.size > size) ∧
    (L.gas > gas ∧ L.size > size →
      (try_forward receipt gas size shard m outgoing apply_state).2.2 =
        outgoing ++ [receipt] ∧
      alistGet (try_forward receipt gas size shard m outgoing apply_state).2.1 shard =
        some { gas := L.gas - gas, size := L.size - size }) ∧
    (L.gas = gas ∨ L.size = size →
      (try_forward receipt gas size shard m outgoing apply_state).1 =
        .notForwarded receipt ∧
      (try_forward receipt gas size shard m outgoing apply_state).2.2 = outgoing ∧
      alistGet (try_forward receipt gas size shard m outgoing apply_state).2.1 shard =
        some L) := by
  unfold try_forward
  rw [hL]
  simp only [Option.getD_some]
  by_cases hfit : L.gas > gas ∧ L.size > size
  · refine ⟨by simp [hfit], fun _ => ⟨by simp [hfit], ?_⟩, fun heq => ?_⟩
    · simp [hfit, alistGet_alistSet_self]
    · exact False.elim (by
        obtain ⟨h1, h2⟩ := hfit
        rcases heq with h | h
        · exact absurd h (ne_of_gt h1)
        · exact absurd h (ne_of_gt h2))
  · refine ⟨by simp [hfit], fun h => absurd h hfit, fun _ => ?_⟩
    simp [hfit, alistGet_alistSet_self]

/-- Witness for C1 at a concrete input: limit `{gas := 10, size := 10}`, a
receipt with `gas = 10` (equality): not forwarded; and with `gas = 3,
size = 4`: forwarded with the limit decremented to `{7, 6}`. -/
theorem try_forward_strict_limit_witness :
    (alistGet [(5, { gas := 10, size := 10 : OutgoingLimit })] 5 =
        some { gas := 10, size := 10 : OutgoingLimit }) ∧
    ((try_forward { receiver_id := 0, receipt := .data, encodedSize := 4 } 10 4 5
        [(5, { gas := 10, size := 10 })] []
        { config := { new_action_receipt_exec_fee := 0, use_state_stored_receipt := false,
                      outgoing_receipts_usual_size_limit := 100, max_receipt_size := 100 },
          shard_id := 1, congestion_info := [], account_id_to_shard_id := fun _ => 5 }).1 =
      .notForwarded { receiver_id := 0, receipt := .data, encodedSize := 4 }) := by
  have h := try_forward_strict_limit
    { receiver_id := 0, receipt := .data, encodedSize := 4 } 10 4 5
    [(5, { gas := 10, size := 10 })] []
    { config := { new_action_receipt_exec_fee := 0, use_state_stored_receipt := false,
                  outgoing_receipts_usual_size_limit := 100, max_receipt_size := 100 },
      shard_id := 1, congestion_info := [], account_id_to_shard_id := fun _ => 5 }
    { gas := 10, size := 10 } (by rfl)
  exact ⟨by rfl, (h.2.2 (Or.inl rfl)).1⟩

/-! ## The receipt gas computation (C3) -/

/-- A checked left fold of `safe_add_gas` succeeds exactly when the plain
`Nat` total stays within `u64`, and then computes that total. -/
theorem foldlM_safe_add (f : Action → Nat) (actions : List Action) (init : Nat)
    (h : init ≤ u64Max) :
    actions.foldlM (fun acc a => safe_add_gas acc (f a)) init =
      (if init + (actions.map f).sum ≤ u64Max then
        Except.ok (init + (actions.map f).sum)
      else Except.error {}) := by
  induction actions generalizing init with
  | nil =>
    simp only [List.foldlM_nil, List.map_nil, List.sum_nil, Nat.add_zero, if_pos h]
    rfl
  | cons a t ih =>
    simp only [List.foldlM_cons, safe_add_gas, List.map_cons, List.sum_cons]
    by_cases ha : init + f a ≤ u64Max
    · rw [if_pos ha]
      show t.foldlM (fun acc a => safe_add_gas acc (f a)) (init + f a) = _
      rw [ih (init + f a) ha, ← Nat.add_assoc]
    · have hcond : ¬ (init + (f a + (t.map f).sum) ≤ u64Max) := by omega
      rw [if_neg ha, if_neg hcond]
      rfl

/-- The plain `Nat` total of the four gas components of an action receipt, in
the order the claim lists them. -/
def actionReceiptGasTotal (config : RuntimeConfig) (actions : List Action) : Nat :=
  (actions.map Action.execFee).sum + config.new_action_receipt_exec_fee +
    (actions.map Action.sendFee).sum + (actions.map Action.attachedGas).sum

/-- C3. `compute_receipt_congestion_gas` returns, for an `Action` receipt, the
checked `u64` sum of the prepaid execution fees of every action plus the fixed
new-action-receipt fee, plus the prepaid send fees, plus the gas attached to
function-call actions, failing with an integer-overflow error exactly when
that sum overflows `u64`; and for `Data`, `PromiseYield` and `PromiseResume`
receipts it returns exactly 0. -/
theorem compute_receipt_congestion_gas_spec (r : Receipt) (config : RuntimeConfig) :
    (∀ actions, r.receipt = .action actions →
      compute_receipt_congestion_gas r config =
        (if actionReceiptGasTotal config actions ≤ u64Max then
          Except.ok (actionReceiptGasTotal config actions)
        else Except.error {})) ∧
    (r.receipt = .data ∨ r.receipt = .promiseYield ∨ r.receipt = .promiseResume →
      compute_receipt_congestion_gas r config = .ok 0) := by
  constructor
  · intro actions hr
    have hE := foldlM_safe_add Action.execFee actions 0 (by decide)
    have hS := foldlM_safe_add Action.sendFee actions 0 (by decide)
    have hA := foldlM_safe_add Action.attachedGas actions 0 (by decide)
    simp only [Nat.zero_add] at hE hS hA
    simp only [compute_receipt_congestion_gas, hr, total_prepaid_exec_fees,
      total_prepaid_send_fees, total_prepaid_gas]
    rw [hE, hS, hA]
    simp only [safe_add_gas, actionReceiptGasTotal]
    set E := (actions.map Action.execFee).sum with hEdef
    set S := (actions.map Action.sendFee).sum with hSdef
    set A := (actions.map Action.attachedGas).sum with hAdef
    set F := config.new_action_receipt_exec_fee with hFdef
    by_cases hT : E + F + S + A ≤ u64Max
    · have c1 : E ≤ u64Max := by omega
      have c2 : E + F ≤ u64Max := by omega
      have c3 : S ≤ u64Max := by omega
      have c4 : E + F + S ≤ u64Max := by omega
      have c5 : A ≤ u64Max := by omega
      have c6 : A + (E + F + S) ≤ u64Max := by omega
      simp only [if_pos c1, bind, Except.bind, if_pos c2, if_pos c3, if_pos c4, if_pos c5,
        if_pos c6, if_pos hT, pure, Except.pure]
      exact congrArg Except.ok (by omega)
    · by_cases c1 : E ≤ u64Max
      · by_cases c2 : E + F ≤ u64Max
        · by_cases c3 : S ≤ u64Max
          · by_cases c4 : E + F + S ≤ u64Max
            · by_cases c5 : A ≤ u64Max
              · have c6 : ¬ (A + (E + F + S) ≤ u64Max) := by omega
                simp only [if_pos c1, bind, Except.bind, if_pos c2, if_pos c3, if_pos c4,
                  if_pos c5, if_neg c6, if_neg hT]
              · simp only [if_pos c1, bind, Except.bind, if_pos c2, if_pos c3, if_pos c4,
                  if_neg c5, if_neg hT]
            · simp only [if_pos c1, bind, Except.bind, if_pos c2, if_pos c3, if_neg c4,
                if_neg hT]
          · simp only [if_pos c1, bind, Except.bind, if_pos c2, if_neg c3, if_neg hT]
        · simp only [if_pos c1, bind, Except.bind, if_neg c2, if_neg hT]
      · simp only [if_neg c1, bind, Except.bind, if_neg hT]
  · intro hr
    rcases hr with h | h | h <;>
      simp [compute_receipt_congestion_gas, h]

/-- Witness for C3 at concrete inputs: an action receipt with two actions
summing to 1 + 2 + 10 + 20 + 100 + 200 plus a fee of 7, and a data receipt. -/
theorem compute_receipt_congestion_gas_spec_witness :
    compute_receipt_congestion_gas
        { receiver_id := 0,
          receipt := .action [{ execFee := 1, sendFee := 10, attachedGas := 100 },
                              { execFee := 2, sendFee := 20, attachedGas := 200 }],
          encodedSize := 5 }
        { new_action_receipt_exec_fee := 7, use_state_stored_receipt := false,
          outgoing_receipts_usual_size_limit := 100, max_receipt_size := 100 } =
      .ok 340 ∧
    compute_receipt_congestion_gas
        { receiver_id := 0, receipt := .data, encodedSize := 5 }
        { new_action_receipt_exec_fee := 7, use_state_stored_receipt := false,
          outgoing_receipts_usual_size_limit := 100, max_receipt_size := 100 } =
      .ok 0 := by
  have h := compute_receipt_congestion_gas_spec
    { receiver_id := 0,
      receipt := .action [{ execFee := 1, sendFee := 10, attachedGas := 100 },
                          { execFee := 2, sendFee := 20, attachedGas := 200 }],
      encodedSize := 5 }
    { new_action_receipt_exec_fee := 7, use_state_stored_receipt := false,
      outgoing_receipts_usual_size_limit := 100, max_receipt_size := 100 }
  have h2 := compute_receipt_congestion_gas_spec
    { receiver_id := 0, receipt := .data, encodedSize := 5 }
    { new_action_receipt_exec_fee := 7, use_state_stored_receipt := false,
      outgoing_receipts_usual_size_limit := 100, max_receipt_size := 100 }
  refine ⟨?_, h2.2 (Or.inl rfl)⟩
  have := h.1 [{ execFee := 1, sendFee := 10, attachedGas := 100 },
               { execFee := 2, sendFee := 20, attachedGas := 200 }] rfl
  rw [this]
  rfl

/-! ## The sink constructor (C8, C4) -/

/-- C8. `ReceiptSink::new` enforces the biconditional between the
`CongestionControl` feature flag and the presence of the supplied previous
own congestion info: construction succeeds exactly when the two agree, in
which case a supplied congestion info yields the congestion-aware variant
(`V2`, carrying that congestion info) and an absent one yields the legacy
variant (`V1`); whenever flag and presence disagree, construction fails. -/
theorem receipt_sink_new_biconditional (protocol_version : Nat) (trie : TrieState)
    (apply_state : ApplyState) (policy : CongestionControlPolicy)
    (prev : Option CongestionInfoV1) (bso : Option BandwidthSchedulerParams) :
    ((ReceiptSink.new protocol_version trie apply_state policy prev bso).isOk = true ↔
      congestionControlEnabled protocol_version = prev.isSome) ∧
    (∀ own, prev = some own → congestionControlEnabled protocol_version = true →
      ∃ inner, ReceiptSink.new protocol_version trie apply_state policy prev bso =
          .ok (.v2 inner) ∧ inner.own_congestion_info = own) ∧
    (prev = none → congestionControlEnabled protocol_version = false →
      ReceiptSink.new protocol_version trie apply_state policy prev bso =
        .ok (.v1 [])) := by
  refine ⟨?_, ?_, ?_⟩
  · cases prev with
    | none =>
      cases hcc : congestionControlEnabled protocol_version <;>
        simp [ReceiptSink.new, hcc, Except.isOk, Except.toBool]
    | some own =>
      cases hcc : congestionControlEnabled protocol_version <;>
        simp [ReceiptSink.new, hcc, Except.isOk, Except.toBool]
  · intro own hprev hcc
    subst hprev
    simp only [ReceiptSink.new, hcc]
    exact ⟨_, rfl, rfl⟩
  · intro hprev hcc
    subst hprev
    simp [ReceiptSink.new, hcc]

/-- Witness for C8 at concrete inputs: with the feature on (version 70) and a
supplied congestion info, construction succeeds in congestion-aware mode; with
the feature on and no congestion info the flag and the argument disagree and
construction fails. -/
theorem receipt_sink_new_biconditional_witness :
    (ReceiptSink.new 70 { delayed := [], buffers := [], metadatas := [] }
        { config := { new_action_receipt_exec_fee := 0, use_state_stored_receipt := false,
                      outgoing_receipts_usual_size_limit := 100, max_receipt_size := 100 },
          shard_id := 1, congestion_info := [], account_id_to_shard_id := fun _ => 0 }
        { outgoing_gas_limit := fun _ _ => 5, outgoing_size_limit := fun _ _ => 5 }
        (some { delayed_receipts_gas := 0, buffered_receipts_gas := 0,
                receipt_bytes := 0, allowed_shard := 1 })
        none).isOk = true ∧
    (ReceiptSink.new 70 { delayed := [], buffers := [], metadatas := [] }
        { config := { new_action_receipt_exec_fee := 0, use_state_stored_receipt := false,
                      outgoing_receipts_usual_size_limit := 100, max_receipt_size := 100 },
          shard_id := 1, congestion_info := [], account_id_to_shard_id := fun _ => 0 }
        { outgoing_gas_limit := fun _ _ => 5, outgoing_size_limit := fun _ _ => 5 }
        none none).isOk = false := by
  constructor
  · exact (receipt_sink_new_biconditional 70
      { delayed := [], buffers := [], metadatas := [] }
      { config := { new_action_receipt_exec_fee := 0, use_state_stored_receipt := false,
                    outgoing_receipts_usual_size_limit := 100, max_receipt_size := 100 },
        shard_id := 1, congestion_info := [], account_id_to_shard_id := fun _ => 0 }
      { outgoing_gas_limit := fun _ _ => 5, outgoing_size_limit := fun _ _ => 5 }
      (some { delayed_receipts_gas := 0, buffered_receipts_gas := 0,
              receipt_bytes := 0, allowed_shard := 1 })
      none).1.mpr (by rfl)
  · have h := (receipt_sink_new_biconditional 70
      { delayed := [], buffers := [], metadatas := [] }
      { config := { new_action_receipt_exec_fee := 0, use_state_stored_receipt := false,
                    outgoing_receipts_usual_size_limit := 100, max_receipt_size := 100 },
        shard_id := 1, congestion_info := [], account_id_to_shard_id := fun _ => 0 }
      { outgoing_gas_limit := fun _ _ => 5, outgoing_size_limit := fun _ _ => 5 }
      none none).1
    revert h
    cases hres : (ReceiptSink.new 70 { delayed := [], buffers := [], metadatas := [] }
        { config := { new_action_receipt_exec_fee := 0, use_state_stored_receipt := false,
                      outgoing_receipts_usual_size_limit := 100, max_receipt_size := 100 },
          shard_id := 1, congestion_info := [], account_id_to_shard_id := fun _ => 0 }
        { outgoing_gas_limit := fun _ _ => 5, outgoing_size_limit := fun _ _ => 5 }
        none none).isOk
    · intro _; rfl
    · intro h; exact absurd (h.mp rfl) (by decide)

/-- C4. Outgoing-limit initialisation: the constructor builds the limit map
entrywise from the advertised congestion infos, giving a same-shard
destination the gas limit `Gas::MAX` (`u64Max`) while its size limit still
comes from the peer policy `outgoing_size_limit`; and `try_forward` treats a
destination missing from the map as having the default limit
`gas = Gas::MAX`, `size = outgoing_receipts_usual_size_limit`. -/
theorem outgoing_limit_initialisation (protocol_version : Nat) (trie : TrieState)
    (apply_state : ApplyState) (policy : CongestionControlPolicy)
    (prev : Option CongestionInfoV1) (bso : Option BandwidthSchedulerParams) :
    (∀ inner, ReceiptSink.new protocol_version trie apply_state policy prev bso =
        .ok (.v2 inner) →
      inner.outgoing_limit = apply_state.congestion_info.map (fun p =>
        (p.1,
         { gas := if p.1 = apply_state.shard_id then u64Max
                  else policy.outgoing_gas_limit p.2 apply_state.shard_id
           size := policy.outgoing_size_limit p.2 apply_state.shard_id
           : OutgoingLimit }))) ∧
    (∀ receipt gas size shard m outgoing (as2 : ApplyState),
      alistGet m shard = none →
      ((try_forward receipt gas size shard m outgoing as2).1 = .forwarded ↔
        u64Max > gas ∧ as2.config.outgoing_receipts_usual_size_limit > size)) := by
  constructor
  · intro inner h
    cases prev with
    | none =>
      cases hcc : congestionControlEnabled protocol_version <;>
        simp [ReceiptSink.new, hcc] at h
    | some own =>
      cases hcc : congestionControlEnabled protocol_version
      · simp [ReceiptSink.new, hcc] at h
      · simp only [ReceiptSink.new, hcc, if_true] at h
        have hinner := (Except.ok.injEq _ _).mp h
        have hinner2 := congrArg (fun s => match s with
          | ReceiptSink.v2 i => i.outgoing_limit
          | ReceiptSink.v1 _ => []) hinner
        simp only at hinner2
        rw [← hinner2]
        refine List.map_congr_left (fun p _ => ?_)
        by_cases hp : p.1 = apply_state.shard_id <;> simp [hp]
  · intro receipt gas size shard m outgoing as2 hm
    unfold try_forward
    rw [hm]
    by_cases hfit : u64Max > gas ∧ as2.config.outgoing_receipts_usual_size_limit > size <;>
      simp [hfit]

/-- Witness for C4: a constructor run over a two-entry congestion-info map
(the own shard 1 and a peer shard 2, policy limits 5) yields gas `u64Max` for
shard 1 with size 5, and the policy gas for shard 2; and `try_forward` with an
empty limit map forwards a small receipt against the default limit. -/
theorem outgoing_limit_initialisation_witness :
    (∀ inner, ReceiptSink.new 70 { delayed := [], buffers := [], metadatas := [] }
        { config := { new_action_receipt_exec_fee := 0, use_state_stored_receipt := false,
                      outgoing_receipts_usual_size_limit := 100, max_receipt_size := 100 },
          shard_id := 1,
          congestion_info :=
            [(1, { congestion_info := { delayed_receipts_gas := 0, buffered_receipts_gas := 0,
                                        receipt_bytes := 0, allowed_shard := 1 },
                   missed_chunks_count := 0 }),
             (2, { congestion_info := { delayed_receipts_gas := 0, buffered_receipts_gas := 0,
                                        receipt_bytes := 0, allowed_shard := 2 },
                   missed_chunks_count := 0 })],
          account_id_to_shard_id := fun _ => 0 }
        { outgoing_gas_limit := fun _ _ => 5, outgoing_size_limit := fun _ _ => 6 }
        (some { delayed_receipts_gas := 0, buffered_receipts_gas := 0,
                receipt_bytes := 0, allowed_shard := 1 })
        none = .ok (.v2 inner) →
      inner.outgoing_limit = [(1, { gas := u64Max, size := 6 }), (2, { gas := 5, size := 6 })]) ∧
    ((try_forward { receiver_id := 0, receipt := .data, encodedSize := 4 } 3 4 9 [] []
        { config := { new_action_receipt_exec_fee := 0, use_state_stored_receipt := false,
                      outgoing_receipts_usual_size_limit := 100, max_receipt_size := 100 },
          shard_id := 1, congestion_info := [], account_id_to_shard_id := fun _ => 0 }).1 =
      .forwarded) := by
  have h := outgoing_limit_initialisation 70 { delayed := [], buffers := [], metadatas := [] }
    { config := { new_action_receipt_exec_fee := 0, use_state_stored_receipt := false,
                  outgoing_receipts_usual_size_limit := 100, max_receipt_size := 100 },
      shard_id := 1,
      congestion_info :=
        [(1, { congestion_info := { delayed_receipts_gas := 0, buffered_receipts_gas := 0,
                                    receipt_bytes := 0, allowed_shard := 1 },
               missed_chunks_count := 0 }),
         (2, { congestion_info := { delayed_receipts_gas := 0, buffered_receipts_gas := 0,
                                    receipt_bytes := 0, allowed_shard := 2 },
               missed_chunks_count := 0 })],
      account_id_to_shard_id := fun _ => 0 }
    { outgoing_gas_limit := fun _ _ => 5, outgoing_size_limit := fun _ _ => 6 }
    (some { delayed_receipts_gas := 0, buffered_receipts_gas := 0,
            receipt_bytes := 0, allowed_shard := 1 })
    none
  refine ⟨fun inner hin => ?_, ?_⟩
  · rw [h.1 inner hin]
    rfl
  · exact (h.2 { receiver_id := 0, receipt := .data, encodedSize := 4 } 3 4 9 [] []
      { config := { new_action_receipt_exec_fee := 0, use_state_stored_receipt := false,
                    outgoing_receipts_usual_size_limit := 100, max_receipt_size := 100 },
        shard_id := 1, congestion_info := [], account_id_to_shard_id := fun _ => 0 }
      rfl).mpr (by constructor <;> decide)

/-! ## Empty delayed pop (C10) and overflow atomicity (C9) -/

/-- C10. Popping the delayed-receipt wrapper when the underlying queue is
empty returns `Ok(None)` and leaves the wrapper — in particular all four
accumulated counters (`new_delayed_gas`, `new_delayed_bytes`,
`removed_delayed_gas`, `removed_delayed_bytes`) — unchanged, so an empty pop
contributes nothing to the congestion-info deltas applied at chunk close. -/
theorem delayed_pop_empty (config : RuntimeConfig) (w : DelayedReceiptQueueWrapper)
    (h : w.queue = []) :
    DelayedReceiptQueueWrapper.pop config w = (.ok none, w) := by
  unfold DelayedReceiptQueueWrapper.pop
  rw [h]

/-- Witness for C10: an empty wrapper with nonzero counters is returned
untouched. -/
theorem delayed_pop_empty_witness :
    DelayedReceiptQueueWrapper.pop
        { new_action_receipt_exec_fee := 0, use_state_stored_receipt := false,
          outgoing_receipts_usual_size_limit := 100, max_receipt_size := 100 }
        { queue := [], new_delayed_gas := 3, new_delayed_bytes := 4,
          removed_delayed_gas := 5, removed_delayed_bytes := 6 } =
      (.ok none,
       { queue := [], new_delayed_gas := 3, new_delayed_bytes := 4,
         removed_delayed_gas := 5, removed_delayed_bytes := 6 }) :=
  delayed_pop_empty
    { new_action_receipt_exec_fee := 0, use_state_stored_receipt := false,
      outgoing_receipts_usual_size_limit := 100, max_receipt_size := 100 }
    { queue := [], new_delayed_gas := 3, new_delayed_bytes := 4,
      removed_delayed_gas := 5, removed_delayed_bytes := 6 } rfl

/-- C9. Atomicity on arithmetic failure: when the congestion-gas computation
of a receipt overflows `u64`, `forward_or_buffer_receipt` returns the
integer-overflow error and the sink state — outgoing-receipts list, outgoing
limit map, outgoing buffers and metadata (the trie update), and the own
congestion-info totals — is exactly the state before the call. -/
theorem forward_or_buffer_overflow_atomic (receipt : Receipt)
    (apply_state : ApplyState) (st : ReceiptSinkV2)
    (h : compute_receipt_congestion_gas receipt apply_state.config = .error {}) :
    forward_or_buffer_receipt receipt apply_state st = (.error .integerOverflow, st) := by
  unfold forward_or_buffer_receipt
  cases hs : compute_receipt_size receipt with
  | error e => rfl
  | ok size => rw [h]

/-- Witness for C9: an action receipt whose prepaid execution fees sum to
`u64Max + 1`; the call fails with `IntegerOverflow` and returns the sink
unchanged (here a sink with one pending outgoing receipt and a nonempty
buffer). -/
theorem forward_or_buffer_overflow_atomic_witness :
    compute_receipt_congestion_gas
        { receiver_id := 2,
          receipt := .action [{ execFee := u64Max, sendFee := 0, attachedGas := 0 },
                              { execFee := 1, sendFee := 0, attachedGas := 0 }],
          encodedSize := 8 }
        { new_action_receipt_exec_fee := 0, use_state_stored_receipt := false,
          outgoing_receipts_usual_size_limit := 100, max_receipt_size := 100 } =
      .error {} ∧
    forward_or_buffer_receipt
        { receiver_id := 2,
          receipt := .action [{ execFee := u64Max, sendFee := 0, attachedGas := 0 },
                              { execFee := 1, sendFee := 0, attachedGas := 0 }],
          encodedSize := 8 }
        { config := { new_action_receipt_exec_fee := 0, use_state_stored_receipt := false,
                      outgoing_receipts_usual_size_limit := 100, max_receipt_size := 100 },
          shard_id := 1, congestion_info := [], account_id_to_shard_id := fun a => a }
        { own_congestion_info := { delayed_receipts_gas := 1, buffered_receipts_gas := 2,
                                   receipt_bytes := 3, allowed_shard := 1 },
          outgoing_receipts := [{ receiver_id := 9, receipt := .data, encodedSize := 1 }],
          outgoing_limit := [(2, { gas := 10, size := 10 })],
          outgoing_buffers := [(2, [.receipt { receiver_id := 9, receipt := .data,
                                               encodedSize := 1 }])],
          outgoing_metadatas := [], bandwidth_scheduler_output := none,
          protocol_version := 70 } =
      (.error .integerOverflow,
       { own_congestion_info := { delayed_receipts_gas := 1, buffered_receipts_gas := 2,
                                  receipt_bytes := 3, allowed_shard := 1 },
         outgoing_receipts := [{ receiver_id := 9, receipt := .data, encodedSize := 1 }],
         outgoing_limit := [(2, { gas := 10, size := 10 })],
         outgoing_buffers := [(2, [.receipt { receiver_id := 9, receipt := .data,
                                              encodedSize := 1 }])],
         outgoing_metadatas := [], bandwidth_scheduler_output := none,
         protocol_version := 70 }) := by
  refine ⟨by rfl, ?_⟩
  exact forward_or_buffer_overflow_atomic
    { receiver_id := 2,
      receipt := .action [{ execFee := u64Max, sendFee := 0, attachedGas := 0 },
                          { execFee := 1, sendFee := 0, attachedGas := 0 }],
      encodedSize := 8 }
    { config := { new_action_receipt_exec_fee := 0, use_state_stored_receipt := false,
                  outgoing_receipts_usual_size_limit := 100, max_receipt_size := 100 },
      shard_id := 1, congestion_info := [], account_id_to_shard_id := fun a => a }
    { own_congestion_info := { delayed_receipts_gas := 1, buffered_receipts_gas := 2,
                               receipt_bytes := 3, allowed_shard := 1 },
      outgoing_receipts := [{ receiver_id := 9, receipt := .data, encodedSize := 1 }],
      outgoing_limit := [(2, { gas := 10, size := 10 })],
      outgoing_buffers := [(2, [.receipt { receiver_id := 9, receipt := .data,
                                           encodedSize := 1 }])],
      outgoing_metadatas := [], bandwidth_scheduler_output := none,
      protocol_version := 70 }
    (by rfl)

/-! ## Bandwidth-request synthesis (C7) -/

/-- C7. Bandwidth-request synthesis: no request is produced for a destination
with an empty outgoing buffer; for a non-empty buffer, if metadata exists for
the destination and its receipt count equals the buffer length the request is
built from the metadata receipt-size groups, otherwise (missing metadata or a
diverging count) a basic request sized to `max_receipt_size` is emitted; and
with the `BandwidthScheduler` feature enabled and params available the result
is the per-destination requests wrapped as `BandwidthRequests::V1`. -/
theorem generate_bandwidth_request_spec (st : ReceiptSinkV2)
    (params : BandwidthSchedulerParams) :
    (∀ d, (bufferOf st d).length = 0 →
      generate_bandwidth_request st d params = none) ∧
    (∀ d md, (bufferOf st d).length ≠ 0 →
      alistGet st.outgoing_metadatas d = some md →
      md.total_receipts = (bufferOf st d).length →
      generate_bandwidth_request st d params =
        some (.fromReceiptSizes d md.group_sizes)) ∧
    (∀ d, (bufferOf st d).length ≠ 0 →
      (alistGet st.outgoing_metadatas d = none ∨
        ∃ md, alistGet st.outgoing_metadatas d = some md ∧
          md.total_receipts ≠ (bufferOf st d).length) →
      generate_bandwidth_request st d params =
        some (.maxReceiptSize d params.max_receipt_size)) ∧
    (bandwidthSchedulerEnabled st.protocol_version = true →
      st.bandwidth_scheduler_output = some params →
      generate_bandwidth_requests st =
        .ok (some (.v1
          { requests :=
              (st.outgoing_buffers.map Prod.fst).filterMap
                (fun s => generate_bandwidth_request st s params) }))) := by
  refine ⟨?_, ?_, ?_, ?_⟩
  · intro d hd
    simp [generate_bandwidth_request, hd]
  · intro d md hd hmd htotal
    simp [generate_bandwidth_request, hd, hmd, htotal]
  · intro d hd hcase
    rcases hcase with hnone | ⟨md, hmd, hne⟩
    · simp [generate_bandwidth_request, hd, hnone]
    · simp [generate_bandwidth_request, hd, hmd, hne]
  · intro hfeat hparams
    simp [generate_bandwidth_requests, hfeat, hparams]

/-- Witness for C7 at a concrete sink: shard 3 has an empty buffer (no
request), shard 4 has one receipt with matching metadata (proper request from
the groups), shard 5 has one receipt and stale metadata reporting 2 (basic
request); the wrapped result lists the two requests. -/
theorem generate_bandwidth_request_spec_witness :
    generate_bandwidth_request sinkC7 3 { max_receipt_size := 42 } = none ∧
    generate_bandwidth_request sinkC7 4 { max_receipt_size := 42 } =
      some (.fromReceiptSizes 4 [7]) ∧
    generate_bandwidth_request sinkC7 5 { max_receipt_size := 42 } =
      some (.maxReceiptSize 5 42) ∧
    generate_bandwidth_requests sinkC7 =
      .ok (some (.v1 { requests := [.fromReceiptSizes 4 [7], .maxReceiptSize 5 42] })) := by
  have h := generate_bandwidth_request_spec sinkC7 { max_receipt_size := 42 }
  refine ⟨h.1 3 (by rfl), ?_, ?_, ?_⟩
  · exact h.2.1 4 { total_receipts := 1, group_sizes := [7] } (by decide) (by rfl) (by rfl)
  · exact h.2.2.1 5 (by decide)
      (Or.inr ⟨{ total_receipts := 2, group_sizes := [7, 7] }, by rfl, by decide⟩)
  · have := h.2.2.2 (by rfl) (by rfl)
    rw [this]
    rfl

/-! ## Bootstrap (C5) -/

theorem bootstrapScan_ok_sums (config : RuntimeConfig)
    (l : List ReceiptOrStateStoredReceipt) (gasAcc bytesAcc : Nat) (res : Nat × Nat)
    (h : bootstrapScan config l gasAcc bytesAcc = .ok res) :
    res = (gasAcc + gasSum config l, bytesAcc + sizeSum l) := by
  induction l generalizing gasAcc bytesAcc with
  | nil =>
    simp only [bootstrapScan, Except.ok.injEq] at h
    simp [← h, gasSum, sizeSum]
  | cons r rest ih =>
    rw [bootstrapScan] at h
    split at h
    · exact absurd h (by simp)
    next gas hg =>
      split at h
      · exact absurd h (by simp)
      next gasAcc' hadd =>
        split at h
        · exact absurd h (by simp)
        next memory hs =>
          split at h
          · have hres := ih gasAcc' _ h
            have hgv : gasAcc' = gasAcc + gas := by
              simp only [safe_add_gas_to_u128] at hadd
              split at hadd
              · exact ((Except.ok.injEq _ _).mp hadd).symm
              · exact absurd hadd (by simp)
            subst hgv
            rw [hres]
            simp only [gasSum, sizeSum, List.map_cons, List.sum_cons, storedGas, storedSize,
              hg, hs]
            exact Prod.ext (by omega) (by omega)
          · exact absurd h (by simp)

theorem bootstrapScan_error_value (config : RuntimeConfig)
    (l : List ReceiptOrStateStoredReceipt) (gasAcc bytesAcc : Nat) (e : StorageError)
    (h : bootstrapScan config l gasAcc bytesAcc = .error e) :
    e = overflow_storage_err := by
  induction l generalizing gasAcc bytesAcc with
  | nil => exact absurd h (by simp [bootstrapScan])
  | cons r rest ih =>
    rw [bootstrapScan] at h
    split at h
    · exact ((Except.error.injEq _ _).mp h).symm
    · split at h
      · exact ((Except.error.injEq _ _).mp h).symm
      next gasAcc' hadd =>
        split at h
        · exact ((Except.error.injEq _ _).mp h).symm
        · split at h
          · exact ih gasAcc' _ h
          · exact ((Except.error.injEq _ _).mp h).symm

theorem bootstrapScan_complete (config : RuntimeConfig)
    (l : List ReceiptOrStateStoredReceipt) (gasAcc bytesAcc : Nat)
    (hok : scanOk config l = true)
    (hgas : gasAcc + gasSum config l ≤ u128Max)
    (hbytes : bytesAcc + sizeSum l ≤ u64Max) :
    bootstrapScan config l gasAcc bytesAcc =
      .ok (gasAcc + gasSum config l, bytesAcc + sizeSum l) := by
  induction l generalizing gasAcc bytesAcc with
  | nil => simp [bootstrapScan, gasSum, sizeSum]
  | cons r rest ih =>
    simp only [scanOk, List.all_cons, Bool.and_eq_true] at hok
    obtain ⟨⟨hg, hs⟩, hrest⟩ := hok
    cases hgv : receipt_congestion_gas r config with
    | error e => rw [hgv] at hg; exact absurd hg (by simp [Except.isOk, Except.toBool])
    | ok gas =>
      cases hsv : receipt_size r with
      | error e => rw [hsv] at hs; exact absurd hs (by simp [Except.isOk, Except.toBool])
      | ok memory =>
        have hgs : gasSum config (r :: rest) = gas + gasSum config rest := by
          simp [gasSum, storedGas, hgv]
        have hss : sizeSum (r :: rest) = memory + sizeSum rest := by
          simp [sizeSum, storedSize, hsv]
        rw [hgs] at hgas
        rw [hss] at hbytes
        have hadd : safe_add_gas_to_u128 gasAcc gas = .ok (gasAcc + gas) := by
          simp only [safe_add_gas_to_u128, if_pos (show gasAcc + gas ≤ u128Max by omega)]
        have hb : bytesAcc + memory ≤ u64Max := by omega
        simp only [bootstrapScan, hgv, hsv, hadd, hgs, hss, if_pos hb]
        have hrec := ih (gasAcc + gas) (bytesAcc + memory) hrest (by omega) (by omega)
        rw [hrec]
        exact congrArg Except.ok (Prod.ext (by omega) (by omega))

/-- C5. `bootstrap_congestion_info` returns, when it succeeds, a
`CongestionInfo` whose `delayed_receipts_gas` is the gas sum over the delayed
queue, whose `buffered_receipts_gas` is the gas sum over all outgoing buffers,
whose `receipt_bytes` is the size sum over the delayed queue plus all
outgoing buffers, and whose `allowed_shard` is the owning shard; it succeeds
whenever every per-receipt computation succeeds and no checked addition
overflows, and every failure is the storage-inconsistency error. -/
theorem bootstrap_congestion_info_spec (trie : TrieState) (config : RuntimeConfig)
    (own : Nat) :
    (∀ c, bootstrap_congestion_info trie config own = .ok c →
      c.delayed_receipts_gas = gasSum config trie.delayed ∧
      c.buffered_receipts_gas = gasSum config (trie.buffers.map Prod.snd).flatten ∧
      c.receipt_bytes =
        sizeSum trie.delayed + sizeSum (trie.buffers.map Prod.snd).flatten ∧
      c.allowed_shard = own) ∧
    (∀ e, bootstrap_congestion_info trie config own = .error e →
      e = overflow_storage_err) ∧
    (scanOk config trie.delayed = true →
      scanOk config (trie.buffers.map Prod.snd).flatten = true →
      gasSum config trie.delayed ≤ u128Max →
      gasSum config (trie.buffers.map Prod.snd).flatten ≤ u128Max →
      sizeSum trie.delayed + sizeSum (trie.buffers.map Prod.snd).flatten ≤ u64Max →
      bootstrap_congestion_info trie config own =
        .ok { delayed_receipts_gas := gasSum config trie.delayed
              buffered_receipts_gas := gasSum config (trie.buffers.map Prod.snd).flatten
              receipt_bytes :=
                sizeSum trie.delayed + sizeSum (trie.buffers.map Prod.snd).flatten
              allowed_shard := own }) := by
  refine ⟨?_, ?_, ?_⟩
  · intro c hc
    unfold bootstrap_congestion_info at hc
    cases h1 : bootstrapScan config trie.delayed 0 0 with
    | error e => exact absurd hc (by simp only [h1]; simp)
    | ok p1 =>
      obtain ⟨dg, b1⟩ := p1
      simp only [h1] at hc
      cases h2 : bootstrapScan config (trie.buffers.map Prod.snd).flatten 0 b1 with
      | error e => exact absurd hc (by simp only [h2]; simp)
      | ok p2 =>
        obtain ⟨bg, b2⟩ := p2
        simp only [h2, Except.ok.injEq] at hc
        have e1 := bootstrapScan_ok_sums config trie.delayed 0 0 _ h1
        have e2 := bootstrapScan_ok_sums config (trie.buffers.map Prod.snd).flatten 0 b1 _ h2
        simp only [Prod.mk.injEq, Nat.zero_add] at e1 e2
        rw [← hc]
        refine ⟨e1.1, e2.1, ?_, rfl⟩
        simp only []
        omega
  · intro e he
    unfold bootstrap_congestion_info at he
    cases h1 : bootstrapScan config trie.delayed 0 0 with
    | error e1 =>
      simp only [h1, Except.error.injEq] at he
      rw [← he]
      exact bootstrapScan_error_value config trie.delayed 0 0 e1 h1
    | ok p1 =>
      obtain ⟨dg, b1⟩ := p1
      simp only [h1] at he
      cases h2 : bootstrapScan config (trie.buffers.map Prod.snd).flatten 0 b1 with
      | error e2 =>
        simp only [h2, Except.error.injEq] at he
        rw [← he]
        exact bootstrapScan_error_value config
          (trie.buffers.map Prod.snd).flatten 0 b1 e2 h2
      | ok p2 =>
        obtain ⟨bg, b2⟩ := p2
        exact absurd he (by simp only [h2]; simp)
  · intro hok1 hok2 hg1 hg2 hb
    unfold bootstrap_congestion_info
    have h1 := bootstrapScan_complete config trie.delayed 0 0 hok1 (by omega) (by omega)
    have h2 := bootstrapScan_complete config (trie.buffers.map Prod.snd).flatten 0
      (sizeSum trie.delayed) hok2 (by omega) (by omega)
    simp only [Nat.zero_add] at h1 h2
    simp only [bootstrap_congestion_info, h1, h2]

/-- Witness for C5: a delayed queue `[gas 3 / size 10, gas 4 / size 11]` and
buffers for shards 2 and 7 holding `gas 5 / size 12` and `gas 6 / size 13`
bootstrap to `{delayed 7, buffered 11, bytes 46, allowed 9}`. -/
theorem bootstrap_congestion_info_spec_witness :
    bootstrap_congestion_info trieC5
        { new_action_receipt_exec_fee := 0, use_state_stored_receipt := true,
          outgoing_receipts_usual_size_limit := 100, max_receipt_size := 100 } 9 =
      .ok { delayed_receipts_gas := 7, buffered_receipts_gas := 11,
            receipt_bytes := 46, allowed_shard := 9 } := by
  have h := (bootstrap_congestion_info_spec trieC5
    { new_action_receipt_exec_fee := 0, use_state_stored_receipt := true,
      outgoing_receipts_usual_size_limit := 100, max_receipt_size := 100 } 9).2.2
    (by rfl) (by rfl) (by decide) (by decide) (by decide)
  rw [h]
  rfl

/-! ## Draining a buffer (C2) -/

/-- Closed form of `try_forward` when the destination has an entry in the
limit map. -/
theorem try_forward_eq (receipt : Receipt) (gas size shard : Nat)
    (m : List (Nat × OutgoingLimit)) (outgoing : List Receipt)
    (apply_state : ApplyState) (L : OutgoingLimit)
    (hL : alistGet m shard = some L) :
    try_forward receipt gas size shard m outgoing apply_state =
      (if L.gas > gas ∧ L.size > size then
        (.forwarded, alistSet m shard { gas := L.gas - gas, size := L.size - size },
         outgoing ++ [receipt])
      else
        (.notForwarded receipt, alistSet m shard L, outgoing)) := by
  unfold try_forward
  rw [hL]
  by_cases hfit : L.gas > gas ∧ L.size > size <;> simp [hfit]

/-- The drain loop realises the greedy head-of-line prefix: on success it
appends exactly the fitting prefix to the outgoing receipts, counts its
length, collects one metadata pop update per contributing receipt of the
prefix, and subtracts the prefix size and gas totals from the own congestion
info, leaving the delayed total and allowed shard untouched. -/
theorem forwardLoop_greedy (apply_state : ApplyState) (shard : Nat)
    (buf : List ReceiptOrStateStoredReceipt) (m : List (Nat × OutgoingLimit))
    (outgoing : List Receipt) (info : CongestionInfoV1) (n : Nat)
    (updates : List (Nat × Nat)) (L : OutgoingLimit)
    (m' : List (Nat × OutgoingLimit)) (o' : List Receipt) (i' : CongestionInfoV1)
    (n' : Nat) (u' : List (Nat × Nat))
    (hL : alistGet m shard = some L)
    (heq : forwardLoop apply_state shard buf m outgoing info n updates =
      (.ok (), m', o', i', n', u')) :
    o' = outgoing ++ (buf.take (greedyCount apply_state.config L buf)).map
        ReceiptOrStateStoredReceipt.into_receipt ∧
    n' = n + greedyCount apply_state.config L buf ∧
    u' = updates ++
      popUpdates apply_state.config (buf.take (greedyCount apply_state.config L buf)) ∧
    sizeSum (buf.take (greedyCount apply_state.config L buf)) ≤ info.receipt_bytes ∧
    i'.receipt_bytes =
      info.receipt_bytes - sizeSum (buf.take (greedyCount apply_state.config L buf)) ∧
    gasSum apply_state.config (buf.take (greedyCount apply_state.config L buf)) ≤
      info.buffered_receipts_gas ∧
    i'.buffered_receipts_gas =
      info.buffered_receipts_gas -
        gasSum apply_state.config (buf.take (greedyCount apply_state.config L buf)) ∧
    i'.delayed_receipts_gas = info.delayed_receipts_gas ∧
    i'.allowed_shard = info.allowed_shard := by
  induction buf generalizing m outgoing info n updates L m' o' i' n' u' with
  | nil =>
    simp only [forwardLoop, Prod.mk.injEq, true_and] at heq
    obtain ⟨h1, h2, h3, h4, h5⟩ := heq
    subst h1 h2 h3 h4 h5
    simp [greedyCount, popUpdates, sizeSum, gasSum]
  | cons r rest ih =>
    rw [forwardLoop] at heq
    split at heq
    · exact absurd heq (by simp)
    next gas hg =>
      split at heq
      · exact absurd heq (by simp)
      next size hs =>
        rw [try_forward_eq r.into_receipt gas size shard m outgoing apply_state L hL] at heq
        by_cases hfit : L.gas > gas ∧ L.size > size
        · rw [if_pos hfit] at heq
          split at heq
          next m2 o2 htf =>
            simp only [Prod.mk.injEq] at htf
            obtain ⟨_, hm2, ho2⟩ := htf
            subst hm2 ho2
            split at heq
            · exact absurd heq (by simp)
            next info1 hrb =>
              split at heq
              · exact absurd heq (by simp)
              next info2 hrg =>
                have hL2 : alistGet (alistSet m shard
                    { gas := L.gas - gas, size := L.size - size }) shard =
                    some { gas := L.gas - gas, size := L.size - size } :=
                  alistGet_alistSet_self m shard _
                have hrec := ih _ _ _ _ _ _ _ _ _ _ _ hL2 heq
                obtain ⟨ro, rn, ru, rs1, rs2, rg1, rg2, rd, ra⟩ := hrec
                have hrbv : size ≤ info.receipt_bytes ∧
                    info1 = { info with receipt_bytes := info.receipt_bytes - size } := by
                  simp only [CongestionInfoV1.remove_receipt_bytes] at hrb
                  split at hrb
                  · exact ⟨by assumption, ((Except.ok.injEq _ _).mp hrb).symm⟩
                  · exact absurd hrb (by simp)
                have hrgv : gas ≤ info1.buffered_receipts_gas ∧
                    info2 = { info1 with buffered_receipts_gas :=
                      info1.buffered_receipts_gas - gas } := by
                  simp only [CongestionInfoV1.remove_buffered_receipt_gas] at hrg
                  split at hrg
                  · exact ⟨by assumption, ((Except.ok.injEq _ _).mp hrg).symm⟩
                  · exact absurd hrg (by simp)
                obtain ⟨hszle, hinfo1⟩ := hrbv
                obtain ⟨hgsle, hinfo2⟩ := hrgv
                have hk : greedyCount apply_state.config L (r :: rest) =
                    1 + greedyCount apply_state.config
                      { gas := L.gas - gas, size := L.size - size } rest := by
                  simp [greedyCount, hg, hs, hfit]
                rw [hk]
                have htake : (r :: rest).take
                    (1 + greedyCount apply_state.config
                      { gas := L.gas - gas, size := L.size - size } rest) =
                    r :: rest.take (greedyCount apply_state.config
                      { gas := L.gas - gas, size := L.size - size } rest) := by
                  rw [Nat.add_comm 1]
                  simp [List.take_succ_cons]
                rw [htake]
                have hsz : storedSize r = size := by simp [storedSize, hs]
                have hgs : storedGas apply_state.config r = gas := by simp [storedGas, hg]
                have hszsum : sizeSum (r :: rest.take (greedyCount apply_state.config
                    { gas := L.gas - gas, size := L.size - size } rest)) =
                    size + sizeSum (rest.take (greedyCount apply_state.config
                      { gas := L.gas - gas, size := L.size - size } rest)) := by
                  simp [sizeSum, hsz]
                have hgssum : gasSum apply_state.config
                    (r :: rest.take (greedyCount apply_state.config
                      { gas := L.gas - gas, size := L.size - size } rest)) =
                    gas + gasSum apply_state.config (rest.take (greedyCount apply_state.config
                      { gas := L.gas - gas, size := L.size - size } rest)) := by
                  simp [gasSum, hgs]
                have hpop : popUpdates apply_state.config
                    (r :: rest.take (greedyCount apply_state.config
                      { gas := L.gas - gas, size := L.size - size } rest)) =
                    (if r.should_update_outgoing_metadatas then [(size, gas)] else []) ++
                    popUpdates apply_state.config (rest.take (greedyCount apply_state.config
                      { gas := L.gas - gas, size := L.size - size } rest)) := by
                  by_cases hshould : r.should_update_outgoing_metadatas <;>
                    simp [popUpdates, hshould, hsz, hgs]
                subst hinfo1
                subst hinfo2
                simp only at hgsle rs1 rs2 rg1 rg2 rd ra
                refine ⟨?_, ?_, ?_, ?_, ?_, ?_, ?_, ?_, ?_⟩
                · rw [ro, List.map_cons]
                  simp [List.append_assoc]
                · rw [rn]; omega
                · rw [ru, hpop, List.append_assoc]
                · rw [hszsum]; omega
                · rw [rs2, hszsum]; omega
                · rw [hgssum]; omega
                · rw [rg2, hgssum]; omega
                · exact rd
                · exact ra
          next nf m2 o2 htf =>
            exact absurd htf (by simp)
        · rw [if_neg hfit] at heq
          split at heq
          next m2 o2 htf =>
            exact absurd htf (by simp)
          next nf m2 o2 htf =>
            simp only [Prod.mk.injEq] at htf
            obtain ⟨_, hm2, ho2⟩ := htf
            subst hm2 ho2
            simp only [Prod.mk.injEq, true_and] at heq
            obtain ⟨h1, h2, h3, h4, h5⟩ := heq
            subst h1 h2 h3 h4 h5
            have hk : greedyCount apply_state.config L (r :: rest) = 0 := by
              simp [greedyCount, hg, hs, hfit]
            rw [hk]
            simp [popUpdates, sizeSum, gasSum]

/-- C2. `forward_from_buffer_to_shard` iterates the destination buffer
head-to-tail and, on success, forwards exactly the greedy head-of-line prefix
(stopping at the first receipt that does not fit the remaining limit, so no
later receipt is forwarded even if it would fit), appends that prefix in
order to `outgoing_receipts`, pops exactly that many receipts from the head
of the buffer, and issues one metadata pop update per popped receipt that
contributed to the outgoing metadata. -/
theorem forward_from_buffer_fifo (shard : Nat) (apply_state : ApplyState)
    (st st' : ReceiptSinkV2) (L : OutgoingLimit)
    (hL : alistGet st.outgoing_limit shard = some L)
    (heq : forward_from_buffer_to_shard shard apply_state st = (.ok (), st')) :
    st'.outgoing_receipts = st.outgoing_receipts ++
      ((bufferOf st shard).take
        (greedyCount apply_state.config L (bufferOf st shard))).map
        ReceiptOrStateStoredReceipt.into_receipt ∧
    bufferOf st' shard =
      (bufferOf st shard).drop
        (greedyCount apply_state.config L (bufferOf st shard)) ∧
    st'.outgoing_metadatas =
      (popUpdates apply_state.config
        ((bufferOf st shard).take
          (greedyCount apply_state.config L (bufferOf st shard)))).foldl
        (fun mds _ => metadatasOnPopped mds shard) st.outgoing_metadatas := by
  unfold forward_from_buffer_to_shard at heq
  split at heq
  · exact absurd heq (by simp)
  next m o i n u hloop =>
    simp only [Prod.mk.injEq, true_and] at heq
    have hg := forwardLoop_greedy apply_state shard (bufferOf st shard)
      st.outgoing_limit st.outgoing_receipts st.own_congestion_info 0 []
      L m o i n u hL hloop
    obtain ⟨ho, hn, hu, _, _, _, _, _, _⟩ := hg
    simp only [List.nil_append, Nat.zero_add] at ho hn hu
    subst heq
    refine ⟨ho, ?_, ?_⟩
    · simp only [bufferOf, alistGet_alistSet_self, Option.getD_some, hn]
    · rw [hu]

/-- Witness for C2, the S3 scenario: buffer for shard 7 holds receipts with
gas 100, 900, 50 (each size 10) against limit `{gas 200, size 1000000}`; only
the first is forwarded (the third would fit but is behind the second), the
buffer keeps the tail, and the metadata pop update fires once. -/
theorem forward_from_buffer_fifo_witness :
    (forward_from_buffer_to_shard 7 applyC2 sinkC2).2.outgoing_receipts =
      [{ receiver_id := 70, receipt := .data, encodedSize := 10 }] ∧
    bufferOf (forward_from_buffer_to_shard 7 applyC2 sinkC2).2 7 =
      [.stateStoredReceipt { receiver_id := 71, receipt := .data, encodedSize := 10 }
         { congestion_gas := 900, congestion_size := 10 },
       .stateStoredReceipt { receiver_id := 72, receipt := .data, encodedSize := 10 }
         { congestion_gas := 50, congestion_size := 10 }] ∧
    (forward_from_buffer_to_shard 7 applyC2 sinkC2).2.outgoing_metadatas =
      [(7, { total_receipts := 2, group_sizes := [10, 10] })] := by
  have h := forward_from_buffer_fifo 7 applyC2 sinkC2
    (forward_from_buffer_to_shard 7 applyC2 sinkC2).2
    { gas := 200, size := 1000000 } (by rfl) (by rfl)
  refine ⟨?_, ?_, ?_⟩
  · rw [h.1]; rfl
  · rw [h.2.1]; rfl
  · rw [h.2.2]; rfl

/-! ## Running-total invariants (C6) -/

theorem sum_alistSet (f : ReceiptOrStateStoredReceipt → Nat)
    (bufs : List (Nat × List ReceiptOrStateStoredReceipt)) (shard : Nat)
    (v : List ReceiptOrStateStoredReceipt) :
    ((alistSet bufs shard v).map (fun p => (p.2.map f).sum)).sum +
      (((alistGet bufs shard).getD []).map f).sum =
    (bufs.map (fun p => (p.2.map f).sum)).sum + (v.map f).sum := by
  induction bufs with
  | nil => simp [alistSet, alistGet]
  | cons p t ih =>
    obtain ⟨k, w⟩ := p
    by_cases hk : k = shard
    · subst hk
      simp [alistSet, alistGet]
      omega
    · simp only [alistSet, alistGet, if_neg hk, List.map_cons, List.sum_cons]
      omega

theorem entry_sum_le (f : ReceiptOrStateStoredReceipt → Nat)
    (bufs : List (Nat × List ReceiptOrStateStoredReceipt)) (shard : Nat) :
    (((alistGet bufs shard).getD []).map f).sum ≤
      (bufs.map (fun p => (p.2.map f).sum)).sum := by
  induction bufs with
  | nil => simp [alistGet]
  | cons p t ih =>
    obtain ⟨k, w⟩ := p
    by_cases hk : k = shard
    · subst hk
      simp [alistGet]
    · simp only [alistGet, if_neg hk, List.map_cons, List.sum_cons]
      omega

theorem add_delayed_receipt_gas_ok (c : CongestionInfoV1) (g : Nat)
    (c' : CongestionInfoV1) (h : c.add_delayed_receipt_gas g = .ok c') :
    c' = { c with delayed_receipts_gas := c.delayed_receipts_gas + g } := by
  simp only [CongestionInfoV1.add_delayed_receipt_gas] at h
  split at h
  · exact ((Except.ok.injEq _ _).mp h).symm
  · exact absurd h (by simp)

theorem remove_delayed_receipt_gas_ok (c : CongestionInfoV1) (g : Nat)
    (c' : CongestionInfoV1) (h : c.remove_delayed_receipt_gas g = .ok c') :
    g ≤ c.delayed_receipts_gas ∧
    c' = { c with delayed_receipts_gas := c.delayed_receipts_gas - g } := by
  simp only [CongestionInfoV1.remove_delayed_receipt_gas] at h
  split at h
  · exact ⟨by assumption, ((Except.ok.injEq _ _).mp h).symm⟩
  · exact absurd h (by simp)

theorem add_receipt_bytes_ok (c : CongestionInfoV1) (b : Nat)
    (c' : CongestionInfoV1) (h : c.add_receipt_bytes b = .ok c') :
    c' = { c with receipt_bytes := c.receipt_bytes + b } := by
  simp only [CongestionInfoV1.add_receipt_bytes] at h
  split at h
  · exact ((Except.ok.injEq _ _).mp h).symm
  · exact absurd h (by simp)

theorem remove_receipt_bytes_ok (c : CongestionInfoV1) (b : Nat)
    (c' : CongestionInfoV1) (h : c.remove_receipt_bytes b = .ok c') :
    b ≤ c.receipt_bytes ∧
    c' = { c with receipt_bytes := c.receipt_bytes - b } := by
  simp only [CongestionInfoV1.remove_receipt_bytes] at h
  split at h
  · exact ⟨by assumption, ((Except.ok.injEq _ _).mp h).symm⟩
  · exact absurd h (by simp)

theorem add_buffered_receipt_gas_ok (c : CongestionInfoV1) (g : Nat)
    (c' : CongestionInfoV1) (h : c.add_buffered_receipt_gas g = .ok c') :
    c' = { c with buffered_receipts_gas := c.buffered_receipts_gas + g } := by
  simp only [CongestionInfoV1.add_buffered_receipt_gas] at h
  split at h
  · exact ((Except.ok.injEq _ _).mp h).symm
  · exact absurd h (by simp)

/-- Closed form of a successful `buffer_receipt`: the own congestion info
gains exactly `(size, gas)`, the wrapped receipt is appended to the
destination buffer, and the outgoing receipts and limit map are untouched. -/
theorem buffer_receipt_ok (receipt : Receipt) (size gas shard : Nat)
    (useSSR : Bool) (st st' : ReceiptSinkV2)
    (h : buffer_receipt receipt size gas shard useSSR st = (.ok (), st')) :
    st'.own_congestion_info.receipt_bytes =
      st.own_congestion_info.receipt_bytes + size ∧
    st'.own_congestion_info.buffered_receipts_gas =
      st.own_congestion_info.buffered_receipts_gas + gas ∧
    st'.own_congestion_info.delayed_receipts_gas =
      st.own_congestion_info.delayed_receipts_gas ∧
    st'.own_congestion_info.allowed_shard = st.own_congestion_info.allowed_shard ∧
    st'.outgoing_buffers = alistSet st.outgoing_buffers shard (bufferOf st shard ++
      [if useSSR then
        .stateStoredReceipt receipt { congestion_gas := gas, congestion_size := size }
      else .receipt receipt]) ∧
    st'.outgoing_receipts = st.outgoing_receipts ∧
    st'.outgoing_limit = st.outgoing_limit := by
  cases useSSR with
  | true =>
    simp only [buffer_receipt, if_true,
      ReceiptOrStateStoredReceipt.should_update_outgoing_metadatas] at h
    split at h
    · exact absurd h (by simp)
    next info1 hab =>
      split at h
      · exact absurd h (by simp)
      next info2 habg =>
        have e1 := add_receipt_bytes_ok _ _ _ hab
        subst e1
        have e2 := add_buffered_receipt_gas_ok _ _ _ habg
        subst e2
        simp only [Prod.mk.injEq, true_and] at h
        subst h
        simp [bufferOf]
  | false =>
    simp only [buffer_receipt, if_false, Bool.false_eq_true,
      ReceiptOrStateStoredReceipt.should_update_outgoing_metadatas] at h
    split at h
    · exact absurd h (by simp)
    next info1 hab =>
      split at h
      · exact absurd h (by simp)
      next info2 habg =>
        have e1 := add_receipt_bytes_ok _ _ _ hab
        subst e1
        have e2 := add_buffered_receipt_gas_ok _ _ _ habg
        subst e2
        simp only [Prod.mk.injEq, true_and] at h
        subst h
        simp [bufferOf]

/-- Closed form of a successful `apply_congestion_changes`: the four
accumulated wrapper deltas are applied to the delayed-gas and byte totals,
the buffered total and the allowed shard are untouched. -/
theorem apply_congestion_changes_ok (w : DelayedReceiptQueueWrapper)
    (c c' : CongestionInfoV1)
    (h : DelayedReceiptQueueWrapper.apply_congestion_changes w c = (.ok (), c')) :
    c'.delayed_receipts_gas =
      c.delayed_receipts_gas + w.new_delayed_gas - w.removed_delayed_gas ∧
    w.removed_delayed_gas ≤ c.delayed_receipts_gas + w.new_delayed_gas ∧
    c'.receipt_bytes =
      c.receipt_bytes + w.new_delayed_bytes - w.removed_delayed_bytes ∧
    w.removed_delayed_bytes ≤ c.receipt_bytes + w.new_delayed_bytes ∧
    c'.buffered_receipts_gas = c.buffered_receipts_gas ∧
    c'.allowed_shard = c.allowed_shard := by
  unfold DelayedReceiptQueueWrapper.apply_congestion_changes at h
  split at h
  · exact absurd h (by simp)
  next c1 h1 =>
    split at h
    · exact absurd h (by simp)
    next c2 h2 =>
      split at h
      · exact absurd h (by simp)
      next c3 h3 =>
        split at h
        · exact absurd h (by simp)
        next c4 h4 =>
          simp only [Prod.mk.injEq, true_and] at h
          subst h
          have e1 := add_delayed_receipt_gas_ok _ _ _ h1
          subst e1
          obtain ⟨hle2, e2⟩ := remove_delayed_receipt_gas_ok _ _ _ h2
          simp only at hle2
          subst e2
          have e3 := add_receipt_bytes_ok _ _ _ h3
          subst e3
          obtain ⟨hle4, e4⟩ := remove_receipt_bytes_ok _ _ _ h4
          simp only at hle4
          subst e4
          exact ⟨by simp, hle2, by simp, hle4, by simp, by simp⟩

/-- C6. The running totals of the own `CongestionInfo` match the queues across
every state change: a successful `forward_or_buffer_receipt` preserves the
invariant that `buffered_receipts_gas` is the gas sum over every outgoing
buffer and `receipt_bytes` is the delayed byte total plus the buffer size
total (buffering adds exactly the receipt size and gas to both sides);
a successful `forward_from_buffer_to_shard` preserves it as well (forwarding
removes exactly the forwarded sizes and gas); and at chunk close a successful
`apply_congestion_changes` applies exactly the accumulated wrapper deltas to
the delayed-gas and byte totals, leaving the buffered total untouched. -/
theorem congestion_totals_invariant :
    (∀ (receipt : Receipt) (apply_state : ApplyState) (st st' : ReceiptSinkV2)
        (delayedBytes : Nat),
      forward_or_buffer_receipt receipt apply_state st = (.ok (), st') →
      sinkInvariant apply_state.config st delayedBytes →
      sinkInvariant apply_state.config st' delayedBytes) ∧
    (∀ (shard : Nat) (apply_state : ApplyState) (st st' : ReceiptSinkV2)
        (L : OutgoingLimit) (delayedBytes : Nat),
      alistGet st.outgoing_limit shard = some L →
      forward_from_buffer_to_shard shard apply_state st = (.ok (), st') →
      sinkInvariant apply_state.config st delayedBytes →
      sinkInvariant apply_state.config st' delayedBytes) ∧
    (∀ (w : DelayedReceiptQueueWrapper) (c c' : CongestionInfoV1),
      DelayedReceiptQueueWrapper.apply_congestion_changes w c = (.ok (), c') →
      c'.delayed_receipts_gas =
        c.delayed_receipts_gas + w.new_delayed_gas - w.removed_delayed_gas ∧
      c'.receipt_bytes =
        c.receipt_bytes + w.new_delayed_bytes - w.removed_delayed_bytes ∧
      c'.buffered_receipts_gas = c.buffered_receipts_gas ∧
      c'.allowed_shard = c.allowed_shard) := by
  refine ⟨?_, ?_, ?_⟩
  · intro receipt apply_state st st' delayedBytes heq hinv
    obtain ⟨hg, hb⟩ := hinv
    unfold forward_or_buffer_receipt at heq
    simp only [] at heq
    split at heq
    · exact absurd heq (by simp)
    next size hsize =>
      split at heq
      · exact absurd heq (by simp)
      next gas hgas =>
        split at heq
        next limit outgoing htf =>
          simp only [Prod.mk.injEq, true_and] at heq
          subst heq
          exact ⟨hg, hb⟩
        next nf limit outgoing htf =>
          have hnf : nf = receipt := by
            unfold try_forward at htf
            simp only [] at htf
            split at htf
            · exact absurd htf (by simp)
            · simp only [Prod.mk.injEq, ReceiptForwarding.notForwarded.injEq] at htf
              exact htf.1.symm
          rw [hnf] at heq
          have hbr := buffer_receipt_ok receipt size gas
            (apply_state.account_id_to_shard_id receipt.receiver_id)
            apply_state.config.use_state_stored_receipt _ st' heq
          obtain ⟨b1, b2, _, _, b5, _, _⟩ := hbr
          simp only at b1 b2 b5
          have hsg : storedGas apply_state.config
              (if apply_state.config.use_state_stored_receipt then
                .stateStoredReceipt receipt
                  { congestion_gas := gas, congestion_size := size }
              else .receipt receipt) = gas := by
            cases hssr : apply_state.config.use_state_stored_receipt <;>
              simp [storedGas, receipt_congestion_gas, hgas]
          have hss : storedSize
              (if apply_state.config.use_state_stored_receipt then
                .stateStoredReceipt receipt
                  { congestion_gas := gas, congestion_size := size }
              else .receipt receipt) = size := by
            cases hssr : apply_state.config.use_state_stored_receipt <;>
              simp [storedSize, receipt_size, hsize]
          have hsums := sum_alistSet (storedGas apply_state.config) st.outgoing_buffers
            (apply_state.account_id_to_shard_id receipt.receiver_id)
            (bufferOf { st with
              outgoing_limit := limit, outgoing_receipts := st.outgoing_receipts }
              (apply_state.account_id_to_shard_id receipt.receiver_id) ++
              [if apply_state.config.use_state_stored_receipt then
                .stateStoredReceipt receipt
                  { congestion_gas := gas, congestion_size := size }
              else .receipt receipt])
          have hsumsz := sum_alistSet storedSize st.outgoing_buffers
            (apply_state.account_id_to_shard_id receipt.receiver_id)
            (bufferOf { st with
              outgoing_limit := limit, outgoing_receipts := st.outgoing_receipts }
              (apply_state.account_id_to_shard_id receipt.receiver_id) ++
              [if apply_state.config.use_state_stored_receipt then
                .stateStoredReceipt receipt
                  { congestion_gas := gas, congestion_size := size }
              else .receipt receipt])
          simp only [sinkInvariant, buffersGas, buffersSize, gasSum, sizeSum, bufferOf,
            List.map_append, List.sum_append, List.map_cons, List.map_nil, List.sum_cons,
            List.sum_nil, hsg, hss] at b1 b2 b5 hg hb hsums hsumsz ⊢
          rw [b5]
          omega
  · intro shard apply_state st st' L delayedBytes hL heq hinv
    obtain ⟨hg, hb⟩ := hinv
    unfold forward_from_buffer_to_shard at heq
    split at heq
    · exact absurd heq (by simp)
    next m o i n u hloop =>
      simp only [Prod.mk.injEq, true_and] at heq
      have hgreedy := forwardLoop_greedy apply_state shard (bufferOf st shard)
        st.outgoing_limit st.outgoing_receipts st.own_congestion_info 0 []
        L m o i n u hL hloop
      obtain ⟨_, hn, _, hs1, hs2, hg1, hg2, _, _⟩ := hgreedy
      simp only [Nat.zero_add] at hn
      subst hn
      subst heq
      have hsums := sum_alistSet (storedGas apply_state.config) st.outgoing_buffers
        shard ((bufferOf st shard).drop
          (greedyCount apply_state.config L (bufferOf st shard)))
      have hsumsz := sum_alistSet storedSize st.outgoing_buffers
        shard ((bufferOf st shard).drop
          (greedyCount apply_state.config L (bufferOf st shard)))
      have hsplitg : gasSum apply_state.config
            ((bufferOf st shard).take (greedyCount apply_state.config L
              (bufferOf st shard))) +
          gasSum apply_state.config
            ((bufferOf st shard).drop (greedyCount apply_state.config L
              (bufferOf st shard))) =
          gasSum apply_state.config (bufferOf st shard) := by
        simp only [gasSum]
        rw [← List.sum_append, ← List.map_append, List.take_append_drop]
      have hsplits : sizeSum
            ((bufferOf st shard).take (greedyCount apply_state.config L
              (bufferOf st shard))) +
          sizeSum
            ((bufferOf st shard).drop (greedyCount apply_state.config L
              (bufferOf st shard))) =
          sizeSum (bufferOf st shard) := by
        simp only [sizeSum]
        rw [← List.sum_append, ← List.map_append, List.take_append_drop]
      simp only [sinkInvariant, buffersGas, buffersSize, gasSum, sizeSum,
        bufferOf] at hg hb hs1 hs2 hg1 hg2 hsums hsumsz hsplitg hsplits ⊢
      omega
  · intro w c c' heq
    have h := apply_congestion_changes_ok w c c' heq
    exact ⟨h.1, h.2.2.1, h.2.2.2.2.1, h.2.2.2.2.2⟩

/-- Witness for C6 at concrete inputs: forwarding a small data receipt
through an empty sink keeps the totals-match invariant; the S3 drain on the
shard-7 buffer keeps it; and applying wrapper deltas (10 gas added, 3
removed; 20 bytes added, 4 removed) to `{delayed 5, buffered 6, bytes 7}`
yields delayed 12 and bytes 23 with the buffered total untouched. -/
theorem congestion_totals_invariant_witness :
    sinkInvariant applyC2.config
      (forward_or_buffer_receipt { receiver_id := 2, receipt := .data, encodedSize := 4 }
        applyC2 sinkC6).2 5 ∧
    sinkInvariant applyC2.config (forward_from_buffer_to_shard 7 applyC2 sinkC2).2 0 ∧
    (DelayedReceiptQueueWrapper.apply_congestion_changes wrapC6 infoC6).2.delayed_receipts_gas
      = 12 ∧
    (DelayedReceiptQueueWrapper.apply_congestion_changes wrapC6 infoC6).2.receipt_bytes
      = 23 ∧
    (DelayedReceiptQueueWrapper.apply_congestion_changes wrapC6 infoC6).2.buffered_receipts_gas
      = 6 := by
  have h3 := congestion_totals_invariant.2.2 wrapC6 infoC6
    (DelayedReceiptQueueWrapper.apply_congestion_changes wrapC6 infoC6).2 (by rfl)
  refine ⟨?_, ?_, ?_, ?_, ?_⟩
  · exact congestion_totals_invariant.1
      { receiver_id := 2, receipt := .data, encodedSize := 4 } applyC2 sinkC6 _ 5
      (by rfl) ⟨by rfl, by rfl⟩
  · exact congestion_totals_invariant.2.1 7 applyC2 sinkC2 _
      { gas := 200, size := 1000000 } 0 (by rfl) (by rfl) ⟨by rfl, by rfl⟩
  · rw [h3.1]; rfl
  · rw [h3.2.1]; rfl
  · rw [h3.2.2.1]; rfl

end CongestionControl
